import Mathlib

/-! # Surface mesher and texture-atlas UV mapper

A shallow embedding of `block.h`, `texture.cpp` / `texture.h` and
`rendering.cpp`, followed by theorems about the embedded functions.

Conventions of the embedding

* C++ `int` values are `Int`; `/` and `%` on `int` are the truncating
  `Int.tdiv` and `Int.tmod`.  Signed overflow is undefined in C++ and is not
  modelled: `idx` stays within 32 bits for every grid side up to 46340.
* `uint32_t` values are `Nat` reduced modulo `2 ^ 32` at every operation
  that produces one (`static_cast<uint32_t>` and `+`).
* `float` values are rationals.  The world coordinates of `BuildMesh`, which
  are integers held in a `float`, are rounded as a 32-bit float rounds them
  (`f32`, `fadd`: 24-bit significand, round to nearest, ties to even).  The
  other float arithmetic (`GetTileUV`, `getColor`) is read as exact
  arithmetic.
* `const Block*` is `Option Block` (`none` is `nullptr`), and
  `TextureAtlas*` is `Option TextureAtlas`.
* A `std::vector` is a `List`; `push_back` appends at the end.
* A function that may throw returns an `Outcome`: the static variables when
  the call ends and the message of the exception, if any.
* What the program obtains from outside (the image decoder, the names
  handed out by OpenGL, `std::hash<std::string>`, the constant
  `WORLD_WIDTH` of `world.h`) is a parameter.
-/

/-! ## float -/

/-- The number of low bits a 32-bit float drops from the natural number `a`:
how often `a` is halved until it is below `2 ^ 24`. -/
def f32.shift : Nat → Nat → Nat
  | 0, _ => 0
  | fuel + 1, a => if a < 2 ^ 24 then 0 else f32.shift fuel (a / 2) + 1

/-- The value `float(n)` of an integer `n` as an integer: `n` itself when
`|n| < 2 ^ 24`, and otherwise `n` rounded to a significand of 24 bits, to
nearest with ties to even (for `|n| < 2 ^ 128`). -/
def f32 (n : Int) : Int :=
  let a := n.natAbs
  if a < 2 ^ 24 then n
  else
    let e := f32.shift 104 a
    let q := a / 2 ^ e
    let r := a % 2 ^ e
    let q := if 2 * r > 2 ^ e ∨ (2 * r = 2 ^ e ∧ q % 2 = 1) then q + 1 else q
    Int.sign n * ((q * 2 ^ e : Nat) : Int)

/-- The float sum `a + b` of two floats that hold the integers `a` and `b`. -/
def fadd (a b : Int) : Int := f32 (a + b)

/-! ## mini_glm.h -/

namespace glm

/-- The struct `glm::vec2`. -/
structure vec2 where
  x : ℚ
  y : ℚ
deriving DecidableEq, Repr

/-- The struct `glm::vec3`. -/
structure vec3 where
  x : ℚ
  y : ℚ
  z : ℚ
deriving DecidableEq, Repr

/-- `vec3::operator-`. -/
def vec3.sub (a o : vec3) : vec3 := ⟨a.x - o.x, a.y - o.y, a.z - o.z⟩

/-- `glm::cross`. -/
def cross (a b : vec3) : vec3 :=
  ⟨a.y * b.z - a.z * b.y, a.z * b.x - a.x * b.z, a.x * b.y - a.y * b.x⟩

end glm

/-! ## block.h -/

/-- The class `Block`; `faceTile` is the array `int faceTile[6]`. -/
structure Block where
  numericId : Int
  id : String
  displayName : String
  hardness : ℚ
  solid : Bool
  transparent : Bool
  faceTile : Fin 6 → Int

namespace Block

/-- `Block::getColor`, with `std::hash<std::string>` as the parameter
`strHash`. -/
def getColor (strHash : String → Nat) (b : Block) : glm.vec3 :=
  if b.id = "Stone" then ⟨1/2, 1/2, 55/100⟩
  else if b.id = "Dirt" then ⟨45/100, 32/100, 15/100⟩
  else if b.id = "Grass" then ⟨2/10, 7/10, 2/10⟩
  else
    let h := strHash b.id
    let r : ℚ := 3/10 + (((h >>> 0) &&& 0xFF : Nat) : ℚ) / 255 * (7/10)
    let g : ℚ := 3/10 + (((h >>> 8) &&& 0xFF : Nat) : ℚ) / 255 * (7/10)
    let bl : ℚ := 3/10 + (((h >>> 16) &&& 0xFF : Nat) : ℚ) / 255 * (7/10)
    ⟨r, g, bl⟩

/-- `Block::GetTileForFace`. -/
def GetTileForFace (b : Block) (face : Int) : Int :=
  if h : 0 ≤ face ∧ face < 6 then b.faceTile ⟨face.toNat, by omega⟩
  else b.faceTile 0

/-- `Block::SetTileForFace`. -/
def SetTileForFace (b : Block) (face tile : Int) : Block :=
  if h : 0 ≤ face ∧ face < 6 then
    { b with faceTile := Function.update b.faceTile ⟨face.toNat, by omega⟩ tile }
  else b

/-- The default constructor `Block()`. -/
def new : Block :=
  { numericId := -1, id := "Block", displayName := "Block", hardness := 1, solid := true,
    transparent := false, faceTile := fun _ => 0 }

/-- The constructor `Block(id_, displayName_)`. -/
def newNamed (id_ : String) (displayName_ : String) : Block :=
  { numericId := -1, id := id_,
    displayName := if displayName_.isEmpty then id_ else displayName_,
    hardness := 1, solid := true, transparent := false, faceTile := fun _ => 0 }

/-- The constructor
`Block(numericId_, id_, displayName_, hardness_, solid_, transparent_)`. -/
def newFull (numericId_ : Int) (id_ displayName_ : String) (hardness_ : ℚ)
    (solid_ transparent_ : Bool) : Block :=
  { numericId := numericId_, id := id_, displayName := displayName_, hardness := hardness_,
    solid := solid_, transparent := transparent_, faceTile := fun _ => 0 }

end Block

/-! ## texture.h, texture.cpp -/

/-- The data members of the class `TextureAtlas`. -/
structure TextureAtlas where
  texId_ : Nat
  width_ : Int
  height_ : Int
  tileW_ : Int
  tileH_ : Int
  cols_ : Int
  rows_ : Int
deriving DecidableEq, Repr

/-- The four outputs `u0, v0, u1, v1` of `GetTileUV`. -/
structure TileUV where
  u0 : ℚ
  v0 : ℚ
  u1 : ℚ
  v1 : ℚ
deriving DecidableEq, Repr

namespace TextureAtlas

/-- The constructor `TextureAtlas::TextureAtlas()`. -/
def new : TextureAtlas := ⟨0, 0, 0, 0, 0, 0, 0⟩

/-- `TextureAtlas::IsValid`. -/
def IsValid (a : TextureAtlas) : Bool :=
  decide (a.texId_ ≠ 0) && decide (a.cols_ > 0) && decide (a.rows_ > 0)

/-- `TextureAtlas::LoadFromFile`.  `stbi_load path flip` is the decoder: it
gives `none` on failure and the decoded width and height otherwise, and it
writes `width_` and `height_` only when it succeeds.  `glGenTextures` is the
texture name OpenGL hands out. -/
def LoadFromFile (stbi_load : String → Bool → Option (Int × Int)) (glGenTextures : Nat)
    (a : TextureAtlas) (filepath : String) (tileWidth tileHeight : Int)
    (flipVertically : Bool) : Bool × TextureAtlas :=
  -- if (texId_) { glDeleteTextures(1, &texId_); texId_ = 0; }
  let a := if a.texId_ ≠ 0 then { a with texId_ := 0 } else a
  match stbi_load filepath flipVertically with
  | none => (false, a)
  | some (w, h) =>
    let a := { a with width_ := w, height_ := h }
    if tileWidth ≤ 0 ∨ tileHeight ≤ 0 then (false, a)
    else
      let a := { a with tileW_ := tileWidth, tileH_ := tileHeight }
      let a := { a with cols_ := a.width_.tdiv a.tileW_ }
      let a := { a with rows_ := a.height_.tdiv a.tileH_ }
      if a.cols_ ≤ 0 ∨ a.rows_ ≤ 0 then (false, a)
      else (true, { a with texId_ := glGenTextures })

/-- `TextureAtlas::GetTileUV`. -/
def GetTileUV (a : TextureAtlas) (tileIndex : Int) : TileUV :=
  if ¬ a.IsValid then ⟨0, 0, 1, 1⟩
  else
    let tileIndex := if tileIndex < 0 then 0 else tileIndex
    let col := tileIndex.tmod a.cols_
    let row := tileIndex.tdiv a.cols_
    let col := if col < 0 then 0 else col
    let row := if row < 0 then 0 else row
    let col := if col ≥ a.cols_ then a.cols_ - 1 else col
    let row := if row ≥ a.rows_ then a.rows_ - 1 else row
    let invW : ℚ := 1 / (a.width_ : ℚ)
    let invH : ℚ := 1 / (a.height_ : ℚ)
    let u0 : ℚ := ((col * a.tileW_ : Int) : ℚ) * invW
    let u1 : ℚ := (((col + 1) * a.tileW_ : Int) : ℚ) * invW
    let v1 : ℚ := 1 - ((row * a.tileH_ : Int) : ℚ) * invH
    let v0 : ℚ := 1 - (((row + 1) * a.tileH_ : Int) : ℚ) * invH
    ⟨u0, v0, u1, v1⟩

end TextureAtlas

/-! ## rendering.h, rendering.cpp -/

/-- `FACE_TOP` of the enum `Face`. -/
def FACE_TOP : Int := 0
/-- `FACE_BOTTOM` of the enum `Face`. -/
def FACE_BOTTOM : Int := 1
/-- `FACE_NORTH` of the enum `Face`. -/
def FACE_NORTH : Int := 2
/-- `FACE_SOUTH` of the enum `Face`. -/
def FACE_SOUTH : Int := 3
/-- `FACE_WEST` of the enum `Face`. -/
def FACE_WEST : Int := 4
/-- `FACE_EAST` of the enum `Face`. -/
def FACE_EAST : Int := 5

namespace rendering

/-- The struct `Vertex`. -/
structure Vertex where
  pos : glm.vec3
  normal : glm.vec3
  color : glm.vec3
  uv : glm.vec2
deriving DecidableEq, Repr

/-- A C array of four elements (`positions[4]`, `uvs[4]`). -/
structure Arr4 (α : Type) where
  e0 : α
  e1 : α
  e2 : α
  e3 : α

/-- The two local vectors `verts` and `inds` of `BuildMesh`. -/
structure Mesh where
  verts : List Vertex
  inds : List Nat
deriving DecidableEq, Repr

/-- What the module obtains from outside: `std::hash<std::string>` and the
object names OpenGL hands out in `BuildMesh`. -/
structure Host where
  strHash : String → Nat
  genVertexArray : Nat
  genVertexBuffer : Nat
  genElementBuffer : Nat

/-- The static variables of `rendering.cpp`.  `vboData` and `eboData` are
the contents of the two GPU buffers named by `s_vbo` and `s_ebo` (empty when
there is no buffer), and `cerr` is the list of the messages the module has
written to `std::cerr`. -/
structure State where
  s_plane : List (Option Block)
  s_planeY : Int
  s_width : Int
  s_vao : Nat
  s_vbo : Nat
  s_ebo : Nat
  s_indexCount : Nat
  s_program : Nat
  s_atlas : Option TextureAtlas
  vboData : List Vertex
  eboData : List Nat
  cerr : List String

/-- `idx`. -/
def idx (s : State) (x z : Int) : Int := x + z * s.s_width

/-- `GetBlockAt`.  The read `s_plane[i]` is defined in C++ only for
`i < s_plane.size()`; the model reads `nullptr` elsewhere. -/
def GetBlockAt (s : State) (x z : Int) : Option Block :=
  if x < 0 ∨ z < 0 ∨ x ≥ s.s_width ∨ z ≥ s.s_width then none
  else s.s_plane.getD (idx s x z).toNat none

/-- `SetBlockAt`. -/
def SetBlockAt (s : State) (x z : Int) (blk : Option Block) : State :=
  if x < 0 ∨ z < 0 ∨ x ≥ s.s_width ∨ z ≥ s.s_width then s
  else { s with s_plane := s.s_plane.set (idx s x z).toNat blk }

/-- `pushQuad`. -/
def pushQuad (m : Mesh) (positions : Arr4 glm.vec3) (normal color : glm.vec3)
    (uvs : Arr4 glm.vec2) : Mesh :=
  let base : Nat := m.verts.length % 2 ^ 32
  { verts := m.verts ++
      [⟨positions.e0, normal, color, uvs.e0⟩,
       ⟨positions.e1, normal, color, uvs.e1⟩,
       ⟨positions.e2, normal, color, uvs.e2⟩,
       ⟨positions.e3, normal, color, uvs.e3⟩],
    inds := m.inds ++
      [(base + 0) % 2 ^ 32, (base + 1) % 2 ^ 32, (base + 2) % 2 ^ 32,
       (base + 2) % 2 ^ 32, (base + 3) % 2 ^ 32, (base + 0) % 2 ^ 32] }

/-- `GetFaceUVsFromAtlas`. -/
def GetFaceUVsFromAtlas (s : State) (b : Block) (face : Int) : Arr4 glm.vec2 :=
  match s.s_atlas with
  | some atlas =>
    if atlas.IsValid then
      let tile := b.GetTileForFace face
      let t := atlas.GetTileUV tile
      ⟨⟨t.u0, t.v0⟩, ⟨t.u1, t.v0⟩, ⟨t.u1, t.v1⟩, ⟨t.u0, t.v1⟩⟩
    else ⟨⟨0, 0⟩, ⟨1, 0⟩, ⟨1, 1⟩, ⟨0, 1⟩⟩
  | none => ⟨⟨0, 0⟩, ⟨1, 0⟩, ⟨1, 1⟩, ⟨0, 1⟩⟩

/-- The body of the inner loop of `BuildMesh` at the cell `(x, z)`.  The floats
`wx`, `wy`, `wz` hold integers; `fadd w 1` is the float sum `w + 1`. -/
def BuildMesh.cell (host : Host) (s : State) (half : Int) (x z : Int) (m : Mesh) : Mesh :=
  match GetBlockAt s x z with
  | none => m
  | some b =>
    let wx : Int := f32 (x - half)
    let wy : Int := f32 s.s_planeY
    let wz : Int := f32 (z - half)
    let color := b.getColor host.strHash
    -- Top (y+)
    let m := pushQuad m
      ⟨⟨wx, fadd wy 1, wz⟩, ⟨fadd wx 1, fadd wy 1, wz⟩,
       ⟨fadd wx 1, fadd wy 1, fadd wz 1⟩, ⟨wx, fadd wy 1, fadd wz 1⟩⟩
      ⟨0, 1, 0⟩ color (GetFaceUVsFromAtlas s b FACE_TOP)
    -- Bottom (y-)
    let m := pushQuad m
      ⟨⟨wx, wy, fadd wz 1⟩, ⟨fadd wx 1, wy, fadd wz 1⟩, ⟨fadd wx 1, wy, wz⟩, ⟨wx, wy, wz⟩⟩
      ⟨0, -1, 0⟩ color (GetFaceUVsFromAtlas s b FACE_BOTTOM)
    -- North (-Z)
    let m := if (GetBlockAt s x (z - 1)).isNone then pushQuad m
      ⟨⟨fadd wx 1, wy, wz⟩, ⟨wx, wy, wz⟩, ⟨wx, fadd wy 1, wz⟩, ⟨fadd wx 1, fadd wy 1, wz⟩⟩
      ⟨0, 0, -1⟩ color (GetFaceUVsFromAtlas s b FACE_NORTH) else m
    -- South (+Z)
    let m := if (GetBlockAt s x (z + 1)).isNone then pushQuad m
      ⟨⟨wx, wy, fadd wz 1⟩, ⟨fadd wx 1, wy, fadd wz 1⟩,
       ⟨fadd wx 1, fadd wy 1, fadd wz 1⟩, ⟨wx, fadd wy 1, fadd wz 1⟩⟩
      ⟨0, 0, 1⟩ color (GetFaceUVsFromAtlas s b FACE_SOUTH) else m
    -- West (-X)
    let m := if (GetBlockAt s (x - 1) z).isNone then pushQuad m
      ⟨⟨wx, wy, wz⟩, ⟨wx, wy, fadd wz 1⟩, ⟨wx, fadd wy 1, fadd wz 1⟩, ⟨wx, fadd wy 1, wz⟩⟩
      ⟨-1, 0, 0⟩ color (GetFaceUVsFromAtlas s b FACE_WEST) else m
    -- East (+X)
    let m := if (GetBlockAt s (x + 1) z).isNone then pushQuad m
      ⟨⟨fadd wx 1, wy, fadd wz 1⟩, ⟨fadd wx 1, wy, wz⟩,
       ⟨fadd wx 1, fadd wy 1, wz⟩, ⟨fadd wx 1, fadd wy 1, fadd wz 1⟩⟩
      ⟨1, 0, 0⟩ color (GetFaceUVsFromAtlas s b FACE_EAST) else m
    m

/-- The inner loop `for (int x = 0; x < s_width; ++x)` of `BuildMesh`. -/
def BuildMesh.row (host : Host) (s : State) (half : Int) (z : Int) (m : Mesh) : Mesh :=
  (List.range s.s_width.toNat).foldl (fun m (x : Nat) => BuildMesh.cell host s half (x : Int) z m) m

/-- The part of `BuildMesh` that fills the local vectors `verts` and `inds`:
their values when the two loops are done. -/
def BuildMesh.loops (host : Host) (s : State) : Mesh :=
  let half : Int := s.s_width.tdiv 2
  (List.range s.s_width.toNat).foldl (fun m (z : Nat) => BuildMesh.row host s half (z : Int) m) ⟨[], []⟩

/-- The first four statements of `BuildMesh`: delete the old GL objects and
set `s_indexCount = 0`. -/
def BuildMesh.free (s : State) : State :=
  let s := if s.s_vao ≠ 0 then { s with s_vao := 0 } else s
  let s := if s.s_vbo ≠ 0 then { s with s_vbo := 0, vboData := [] } else s
  let s := if s.s_ebo ≠ 0 then { s with s_ebo := 0, eboData := [] } else s
  { s with s_indexCount := 0 }

/-- `BuildMesh`: free the old GL objects, fill `verts` and `inds`, and upload
them unless they are empty or too large.  Memory allocation is taken to
succeed, so the `catch` of `std::bad_alloc` is never entered. -/
def BuildMesh (host : Host) (s : State) : State :=
  let s := BuildMesh.free s
  let m := BuildMesh.loops host s
  if m.verts.isEmpty ∨ m.inds.isEmpty then { s with s_indexCount := 0 }
  else if m.inds.length > 100000000 then
    { s with
      cerr := s.cerr ++
        ["BuildMesh: indices too large (" ++ toString m.inds.length ++ "), aborting\n"]
      s_indexCount := 0 }
  else
    { s with
      s_vao := host.genVertexArray
      s_vbo := host.genVertexBuffer
      vboData := m.verts
      s_ebo := host.genElementBuffer
      eboData := m.inds
      s_indexCount := m.inds.length }

/-- The call `glDrawElements(GL_TRIANGLES, count, GL_UNSIGNED_INT, nullptr)`
that `RenderVisible` issues, with the program and vertex array bound and the
value given to `uUseAtlas`. -/
structure DrawCall where
  program : Nat
  vao : Nat
  useAtlas : Bool
  count : Nat
deriving DecidableEq, Repr

/-- `RenderVisible`: the draw call it issues, or `none` when it returns
before drawing. -/
def RenderVisible (s : State) : Option DrawCall :=
  if s.s_indexCount = 0 ∨ s.s_program = 0 then none
  else
    some
      { program := s.s_program
        vao := s.s_vao
        useAtlas := match s.s_atlas with
          | some atlas => atlas.IsValid
          | none => false
        count := s.s_indexCount }

/-- `SetAtlas`.  `BuildMesh` throws nothing in this model, so the `catch` is
never entered. -/
def SetAtlas (host : Host) (s : State) (atlas : Option TextureAtlas) : State :=
  let s := { s with s_atlas := atlas }
  if ¬ s.s_plane.isEmpty then BuildMesh host s else s

/-- What `EnsureProgram` obtains from OpenGL: for the vertex shader, the
fragment shader and the program, either the name of the object or the info
log of the failed compilation or link. -/
structure ShaderHost where
  vertex : Except String Nat
  fragment : Except String Nat
  program : Except String Nat

/-- The result of a call that may throw: the static variables when the call
ends, and the message of the exception it threw, if any. -/
structure Outcome where
  state : State
  exn : Option String

/-- `compileShader`: the shader name, or `0` and a message on `std::cerr`. -/
def compileShader (compiled : Except String Nat) (s : State) : State × Nat :=
  match compiled with
  | .ok name => (s, name)
  | .error log => ({ s with cerr := s.cerr ++ ["Shader compile error: " ++ log ++ "\n"] }, 0)

/-- `linkProgram`: the program name, or `0` and a message on `std::cerr`. -/
def linkProgram (linked : Except String Nat) (s : State) : State × Nat :=
  match linked with
  | .ok name => (s, name)
  | .error log => ({ s with cerr := s.cerr ++ ["Program link error: " ++ log ++ "\n"] }, 0)

/-- `EnsureProgram`. -/
def EnsureProgram (gl : ShaderHost) (s : State) : Outcome :=
  if s.s_program ≠ 0 then ⟨s, none⟩
  else
    let (s, vs) := compileShader gl.vertex s
    let (s, fs) := compileShader gl.fragment s
    if vs = 0 ∨ fs = 0 then ⟨s, some "Failed to compile shaders"⟩
    else
      let (s, p) := linkProgram gl.program s
      ⟨{ s with s_program := p }, none⟩

/-- The statements of `InitFlatPlane` before `EnsureProgram()`, with the
constant `WORLD_WIDTH` of `world.h` as a parameter.  The two loops write
`s_plane[idx(x, z)]`; `idx` reads only `s_width`, which they do not change. -/
def InitFlatPlane.fill (WORLD_WIDTH : Int) (s : State) (prototype : Block) (planeY : Int) :
    State :=
  let s := { s with s_planeY := planeY }
  let s := { s with s_width := WORLD_WIDTH }
  let s := { s with s_plane := List.replicate (s.s_width * s.s_width).toNat none }
  let plane := (List.range s.s_width.toNat).foldl (fun plane (z : Nat) =>
    (List.range s.s_width.toNat).foldl (fun plane (x : Nat) =>
      plane.set (idx s (x : Int) (z : Int)).toNat (some prototype)) plane) s.s_plane
  { s with s_plane := plane }

/-- `InitFlatPlane`.  An exception of `EnsureProgram` leaves the call before
`BuildMesh` is reached; `BuildMesh` throws nothing in this model. -/
def InitFlatPlane (WORLD_WIDTH : Int) (host : Host) (gl : ShaderHost) (s : State)
    (prototype : Block) (planeY : Int) : Outcome :=
  match EnsureProgram gl (InitFlatPlane.fill WORLD_WIDTH s prototype planeY) with
  | ⟨s, some e⟩ => ⟨s, some e⟩
  | ⟨s, none⟩ => ⟨BuildMesh host s, none⟩

/-- `Shutdown`. -/
def Shutdown (s : State) : State :=
  let s := if s.s_vao ≠ 0 then { s with s_vao := 0 } else s
  let s := if s.s_vbo ≠ 0 then { s with s_vbo := 0, vboData := [] } else s
  let s := if s.s_ebo ≠ 0 then { s with s_ebo := 0, eboData := [] } else s
  let s := if s.s_program ≠ 0 then { s with s_program := 0 } else s
  { s with s_plane := [], s_indexCount := 0, s_atlas := none }

/-- The static variables as their initialisers leave them. -/
def initial (WORLD_WIDTH : Int) : State :=
  { s_plane := [], s_planeY := 0, s_width := WORLD_WIDTH, s_vao := 0, s_vbo := 0, s_ebo := 0,
    s_indexCount := 0, s_program := 0, s_atlas := none, vboData := [], eboData := [],
    cerr := [] }

/-- The module states reachable from the initial one by calls of
`InitFlatPlane`, `SetBlockAt`, `SetAtlas` and `Shutdown`; a call of
`InitFlatPlane` that throws leaves a reachable state too. -/
inductive Reachable (WORLD_WIDTH : Int) : State → Prop where
  | init : Reachable WORLD_WIDTH (initial WORLD_WIDTH)
  | initFlatPlane (host : Host) (gl : ShaderHost) (s : State) (prototype : Block)
      (planeY : Int) : Reachable WORLD_WIDTH s →
      Reachable WORLD_WIDTH (InitFlatPlane WORLD_WIDTH host gl s prototype planeY).state
  | setBlockAt (s : State) (x z : Int) (blk : Option Block) : Reachable WORLD_WIDTH s →
      Reachable WORLD_WIDTH (SetBlockAt s x z blk)
  | setAtlas (host : Host) (s : State) (atlas : Option TextureAtlas) :
      Reachable WORLD_WIDTH s → Reachable WORLD_WIDTH (SetAtlas host s atlas)
  | shutdown (s : State) : Reachable WORLD_WIDTH s → Reachable WORLD_WIDTH (Shutdown s)

end rendering

/-! ## Face emission as the specification words it -/

namespace rendering

/-- The number of empty direct neighbours of the cell `(x, z)`. -/
def emptyNeighbours (s : State) (x z : Int) : Nat :=
  (if (GetBlockAt s x (z - 1)).isNone then 1 else 0) +
  (if (GetBlockAt s x (z + 1)).isNone then 1 else 0) +
  (if (GetBlockAt s (x - 1) z).isNone then 1 else 0) +
  (if (GetBlockAt s (x + 1) z).isNone then 1 else 0)

/-- The number of quads the specification gives the cell `(x, z)`: none when
it is empty, and otherwise top, bottom and one side per empty neighbour. -/
def specCellQuads (s : State) (x z : Int) : Nat :=
  if (GetBlockAt s x z).isNone then 0 else 2 + emptyNeighbours s x z

/-- The normals of the quads the specification gives the cell `(x, z)`, in the
order top, bottom, north, south, west, east. -/
def specCellNormals (s : State) (x z : Int) : List glm.vec3 :=
  if (GetBlockAt s x z).isNone then []
  else
    [⟨0, 1, 0⟩, ⟨0, -1, 0⟩] ++
    (if (GetBlockAt s x (z - 1)).isNone then [⟨0, 0, -1⟩] else []) ++
    (if (GetBlockAt s x (z + 1)).isNone then [⟨0, 0, 1⟩] else []) ++
    (if (GetBlockAt s (x - 1) z).isNone then [⟨-1, 0, 0⟩] else []) ++
    (if (GetBlockAt s (x + 1) z).isNone then [⟨1, 0, 0⟩] else [])

/-- The empty mesh `BuildMesh` starts from. -/
def Mesh.empty : Mesh := ⟨[], []⟩

/-- The faces of the quads the specification gives the cell `(x, z)`, in the
order top, bottom, north, south, west, east. -/
def specCellFaces (s : State) (x z : Int) : List Int :=
  if (GetBlockAt s x z).isNone then []
  else
    [FACE_TOP, FACE_BOTTOM] ++
    (if (GetBlockAt s x (z - 1)).isNone then [FACE_NORTH] else []) ++
    (if (GetBlockAt s x (z + 1)).isNone then [FACE_SOUTH] else []) ++
    (if (GetBlockAt s (x - 1) z).isNone then [FACE_WEST] else []) ++
    (if (GetBlockAt s (x + 1) z).isNone then [FACE_EAST] else [])

/-- The outward unit normal of a face: `+Y, -Y, -Z, +Z, -X, +X` for top,
bottom, north, south, west, east. -/
def faceNormal (f : Int) : glm.vec3 :=
  if f = 0 then ⟨0, 1, 0⟩
  else if f = 1 then ⟨0, -1, 0⟩
  else if f = 2 then ⟨0, 0, -1⟩
  else if f = 3 then ⟨0, 0, 1⟩
  else if f = 4 then ⟨-1, 0, 0⟩
  else ⟨1, 0, 0⟩

/-- The UVs of the corners 0, 1, 2, 3 of a quad that shows the rectangle `t`:
`(u0,v0)`, `(u1,v0)`, `(u1,v1)`, `(u0,v1)`. -/
def specQuadUVs (t : TileUV) : List glm.vec2 :=
  [⟨t.u0, t.v0⟩, ⟨t.u1, t.v0⟩, ⟨t.u1, t.v1⟩, ⟨t.u0, t.v1⟩]

/-- The normal and UV the specification gives each vertex of the quads of the
cell `(x, z)` when the valid atlas `atlas` is set: the quad of the face `f`
of a cell holding `b` shows the tile `b.GetTileForFace f`. -/
def specCellUVs (s : State) (atlas : TextureAtlas) (x z : Int) :
    List (glm.vec3 × glm.vec2) :=
  match GetBlockAt s x z with
  | none => []
  | some b =>
    (specCellFaces s x z).flatMap (fun f =>
      (specQuadUVs (atlas.GetTileUV (b.GetTileForFace f))).map (fun uv => (faceNormal f, uv)))

/-- The UVs of the corners 0, 1, 2, 3 of a quad that shows the full unit
rectangle. -/
def unitUVs : List glm.vec2 := [⟨0, 0⟩, ⟨1, 0⟩, ⟨1, 1⟩, ⟨0, 1⟩]

/-- The `k`-th quad of a vertex list: its vertices `4k, 4k+1, 4k+2, 4k+3`. -/
def quadAt (verts : List Vertex) (k : Nat) : List Vertex :=
  (verts.drop (4 * k)).take 4

/-- The normal a quad has by its winding: `(p1 - p0) x (p2 - p0)` of its
first three positions. -/
def windingNormal (quad : List Vertex) : glm.vec3 :=
  match quad with
  | v0 :: v1 :: v2 :: _ => glm.cross (v1.pos.sub v0.pos) (v2.pos.sub v0.pos)
  | _ => ⟨0, 0, 0⟩

/-- The positions `BuildMesh` gives the quad of the face `f` of a cell whose
world position is the floats `(wx, wy, wz)`. -/
def quadPositions (wx wy wz : Int) (f : Int) : Arr4 glm.vec3 :=
  if f = 0 then
    ⟨⟨wx, fadd wy 1, wz⟩, ⟨fadd wx 1, fadd wy 1, wz⟩,
     ⟨fadd wx 1, fadd wy 1, fadd wz 1⟩, ⟨wx, fadd wy 1, fadd wz 1⟩⟩
  else if f = 1 then
    ⟨⟨wx, wy, fadd wz 1⟩, ⟨fadd wx 1, wy, fadd wz 1⟩, ⟨fadd wx 1, wy, wz⟩, ⟨wx, wy, wz⟩⟩
  else if f = 2 then
    ⟨⟨fadd wx 1, wy, wz⟩, ⟨wx, wy, wz⟩, ⟨wx, fadd wy 1, wz⟩, ⟨fadd wx 1, fadd wy 1, wz⟩⟩
  else if f = 3 then
    ⟨⟨wx, wy, fadd wz 1⟩, ⟨fadd wx 1, wy, fadd wz 1⟩,
     ⟨fadd wx 1, fadd wy 1, fadd wz 1⟩, ⟨wx, fadd wy 1, fadd wz 1⟩⟩
  else if f = 4 then
    ⟨⟨wx, wy, wz⟩, ⟨wx, wy, fadd wz 1⟩, ⟨wx, fadd wy 1, fadd wz 1⟩, ⟨wx, fadd wy 1, wz⟩⟩
  else
    ⟨⟨fadd wx 1, wy, fadd wz 1⟩, ⟨fadd wx 1, wy, wz⟩,
     ⟨fadd wx 1, fadd wy 1, wz⟩, ⟨fadd wx 1, fadd wy 1, fadd wz 1⟩⟩

/-- The four vertices `BuildMesh` appends for the face `f` of the cell
`(x, z)` holding the block `b`. -/
def cellQuad (host : Host) (s : State) (half x z : Int) (b : Block) (f : Int) : List Vertex :=
  (pushQuad Mesh.empty
    (quadPositions (f32 (x - half)) (f32 s.s_planeY) (f32 (z - half)) f)
    (faceNormal f) (b.getColor host.strHash) (GetFaceUVsFromAtlas s b f)).verts

/-- The six indices `pushQuad` appends when the vertex list has `n` entries. -/
def quadIndices (n : Nat) : List Nat :=
  [(n % 2 ^ 32 + 0) % 2 ^ 32, (n % 2 ^ 32 + 1) % 2 ^ 32, (n % 2 ^ 32 + 2) % 2 ^ 32,
   (n % 2 ^ 32 + 2) % 2 ^ 32, (n % 2 ^ 32 + 3) % 2 ^ 32, (n % 2 ^ 32 + 0) % 2 ^ 32]

/-- The layout of a mesh made of `q` quads: four vertices per quad, and the
index list is the concatenation of the index groups of the quads. -/
def Mesh.Layout (m : Mesh) (q : Nat) : Prop :=
  m.verts.length = 4 * q ∧ m.inds = (List.range q).flatMap (fun k => quadIndices (4 * k))

end rendering

/-! ## Concrete inputs -/

namespace rendering

/-- A stone block with tile `0` on every face. -/
def stone : Block := ⟨1, "Stone", "Stone", 1, true, false, fun _ => 0⟩

/-- A host whose string hash is constantly `0` and whose GL names are `1, 2, 3`. -/
def host0 : Host := ⟨fun _ => 0, 1, 2, 3⟩

/-- A state with the given cell store and side, plane elevation `0`, no GL
objects, no atlas and nothing written to `std::cerr`. -/
def gridState (cells : List (Option Block)) (w : Int) : State :=
  ⟨cells, 0, w, 0, 0, 0, 0, 0, none, [], [], []⟩

/-- A grid of side 2 whose occupied cells are `(0, 1)` and `(1, 1)`. -/
def twoCells : State := gridState [none, none, some stone, some stone] 2

/-- The grid of side `w` with the block `b` in every cell. -/
def fullGrid (w : Nat) (b : Block) : State :=
  gridState (List.replicate (w * w) (some b)) (w : Int)

/-- A grid of side 2 with no occupied cell. -/
def noCells : State := gridState [none, none, none, none] 2

/-- A grid of side 2 whose only occupied cell is the corner `(1, 0)`. -/
def oneCell : State := gridState [none, some stone, none, none] 2

/-- An OpenGL that compiles and links the program under the names 4, 5, 6. -/
def shaders0 : ShaderHost := ⟨.ok 4, .ok 5, .ok 6⟩

/-- An OpenGL that fails to compile the vertex shader. -/
def shadersFail : ShaderHost := ⟨.error "bad", .ok 5, .ok 6⟩

/-- A block whose faces 0 to 5 show the tiles 1 to 6. -/
def painted : Block :=
  ⟨2, "Painted", "Painted", 1, true, false, fun i => (i.val : Int) + 1⟩

/-- The grid of side 1 holding the block `painted`, with the atlas `atlas`. -/
def paintedCell (atlas : Option TextureAtlas) : State :=
  ⟨[some painted], 0, 1, 0, 0, 0, 0, 0, atlas, [], [], []⟩

end rendering

namespace TextureAtlas

/-- The UV rectangle `GetTileUV` computes from a column and a row. -/
def tileRect (a : TextureAtlas) (col row : Int) : TileUV :=
  ⟨((col * a.tileW_ : Int) : ℚ) * (1 / (a.width_ : ℚ)),
   1 - (((row + 1) * a.tileH_ : Int) : ℚ) * (1 / (a.height_ : ℚ)),
   (((col + 1) * a.tileW_ : Int) : ℚ) * (1 / (a.width_ : ℚ)),
   1 - ((row * a.tileH_ : Int) : ℚ) * (1 / (a.height_ : ℚ))⟩

/-- A loaded 64x64 atlas with 16x16 tiles: 4 columns and 4 rows. -/
def atlas64 : TextureAtlas := ⟨1, 64, 64, 16, 16, 4, 4⟩

/-- A decoder that decodes every file to a 64x64 image. -/
def decode64 : String → Bool → Option (Int × Int) := fun _ _ => some (64, 64)

/-- A decoder that decodes every file to an 8x8 image. -/
def decode8 : String → Bool → Option (Int × Int) := fun _ _ => some (8, 8)

/-- A decoder that fails on every file. -/
def decodeFail : String → Bool → Option (Int × Int) := fun _ _ => none

end TextureAtlas

/-! ## Lemmas on the mesh loops -/

namespace rendering

theorem pushQuad_verts_length (m : Mesh) (p : Arr4 glm.vec3) (n c : glm.vec3)
    (uv : Arr4 glm.vec2) : (pushQuad m p n c uv).verts.length = m.verts.length + 4 := by
  simp [pushQuad]

theorem pushQuad_inds (m : Mesh) (p : Arr4 glm.vec3) (n c : glm.vec3)
    (uv : Arr4 glm.vec2) :
    (pushQuad m p n c uv).inds = m.inds ++ quadIndices m.verts.length := by
  simp [pushQuad, quadIndices]

theorem pushQuad_verts (m : Mesh) (p : Arr4 glm.vec3) (n c : glm.vec3)
    (uv : Arr4 glm.vec2) :
    (pushQuad m p n c uv).verts = m.verts ++ (pushQuad Mesh.empty p n c uv).verts := by
  simp [pushQuad, Mesh.empty]

theorem cell_verts (host : Host) (s : State) (half x z : Int) (m : Mesh) :
    (BuildMesh.cell host s half x z m).verts
      = m.verts ++ (BuildMesh.cell host s half x z Mesh.empty).verts := by
  unfold BuildMesh.cell
  cases GetBlockAt s x z with
  | none => simp [Mesh.empty]
  | some b =>
    simp only []
    split_ifs <;> simp [pushQuad, Mesh.empty]

theorem cell_normals (host : Host) (s : State) (half x z : Int) :
    (BuildMesh.cell host s half x z Mesh.empty).verts.map (fun v => v.normal)
      = (specCellNormals s x z).flatMap (fun n => List.replicate 4 n) := by
  unfold BuildMesh.cell specCellNormals
  cases GetBlockAt s x z with
  | none => simp [Mesh.empty]
  | some b =>
    simp only []
    split_ifs <;> simp_all [pushQuad, Mesh.empty, List.replicate]

theorem foldl_verts {α : Type} (f : Mesh → α → Mesh) (g : α → List Vertex)
    (hf : ∀ m a, (f m a).verts = m.verts ++ g a) (l : List α) (m : Mesh) :
    (l.foldl f m).verts = m.verts ++ l.flatMap g := by
  induction l generalizing m with
  | nil => simp
  | cons a l ih => simp [List.foldl_cons, ih, hf, List.flatMap_cons]

theorem row_verts (host : Host) (s : State) (half z : Int) (m : Mesh) :
    (BuildMesh.row host s half z m).verts
      = m.verts ++ (List.range s.s_width.toNat).flatMap
          (fun x => (BuildMesh.cell host s half (x : Int) z Mesh.empty).verts) := by
  unfold BuildMesh.row
  exact foldl_verts (fun m (x : Nat) => BuildMesh.cell host s half (x : Int) z m) _
    (fun m a => cell_verts host s half (a : Int) z m) _ m

theorem loops_verts (host : Host) (s : State) :
    (BuildMesh.loops host s).verts
      = (List.range s.s_width.toNat).flatMap (fun (z : Nat) =>
          (List.range s.s_width.toNat).flatMap (fun (x : Nat) =>
            (BuildMesh.cell host s (s.s_width.tdiv 2) (x : Int) (z : Int) Mesh.empty).verts)) := by
  unfold BuildMesh.loops
  have h := foldl_verts (fun m (z : Nat) => BuildMesh.row host s (s.s_width.tdiv 2) (z : Int) m)
    _ (fun m a => row_verts host s (s.s_width.tdiv 2) (a : Int) m)
    (List.range s.s_width.toNat) ⟨[], []⟩
  simpa using h

theorem layout_pushQuad (m : Mesh) (q : Nat) (h : m.Layout q) (p : Arr4 glm.vec3)
    (n c : glm.vec3) (uv : Arr4 glm.vec2) : (pushQuad m p n c uv).Layout (q + 1) := by
  obtain ⟨hv, hi⟩ := h
  refine ⟨by rw [pushQuad_verts_length, hv]; ring, ?_⟩
  rw [pushQuad_inds, hi, hv, List.range_succ, List.flatMap_append]
  simp

theorem layout_ite (c : Bool) (m : Mesh) (h : ∃ q, m.Layout q) (p : Arr4 glm.vec3)
    (n col : glm.vec3) (uv : Arr4 glm.vec2) :
    ∃ q, (if c then pushQuad m p n col uv else m).Layout q := by
  obtain ⟨q, hq⟩ := h
  cases c with
  | false => exact ⟨q, by simpa using hq⟩
  | true => exact ⟨q + 1, by simpa using layout_pushQuad m q hq p n col uv⟩

theorem layout_cell (host : Host) (s : State) (half x z : Int) (m : Mesh) (q : Nat)
    (h : m.Layout q) : ∃ q2, (BuildMesh.cell host s half x z m).Layout q2 := by
  unfold BuildMesh.cell
  cases GetBlockAt s x z with
  | none => exact ⟨q, h⟩
  | some b =>
    simp only []
    exact layout_ite _ _ (layout_ite _ _ (layout_ite _ _ (layout_ite _ _
      ⟨_, layout_pushQuad _ _ (layout_pushQuad m q h _ _ _ _) _ _ _ _⟩ _ _ _ _) _ _ _ _)
      _ _ _ _) _ _ _ _

theorem foldl_layout {α : Type} (f : Mesh → α → Mesh)
    (hf : ∀ m a q, m.Layout q → ∃ q2, (f m a).Layout q2) (l : List α) (m : Mesh) (q : Nat)
    (h : m.Layout q) : ∃ q2, (l.foldl f m).Layout q2 := by
  induction l generalizing m q with
  | nil => exact ⟨q, h⟩
  | cons a l ih =>
    obtain ⟨q1, h1⟩ := hf m a q h
    exact ih _ q1 h1

theorem loops_layout (host : Host) (s : State) :
    ∃ q, (BuildMesh.loops host s).Layout q := by
  unfold BuildMesh.loops
  refine foldl_layout _ ?_ _ _ 0 ⟨rfl, rfl⟩
  intro m z q h
  unfold BuildMesh.row
  exact foldl_layout _ (fun m a q h => layout_cell host s _ _ _ m q h) _ m q h

end rendering

namespace rendering

theorem specCellNormals_length (s : State) (x z : Int) :
    ((specCellNormals s x z).flatMap (fun n => List.replicate 4 n)).length
      = 4 * specCellQuads s x z := by
  unfold specCellNormals specCellQuads emptyNeighbours
  split_ifs <;> simp

theorem cell_normals_append (host : Host) (s : State) (half x z : Int) (m : Mesh) :
    (BuildMesh.cell host s half x z m).verts.map (fun v => v.normal)
      = m.verts.map (fun v => v.normal)
        ++ (specCellNormals s x z).flatMap (fun n => List.replicate 4 n) := by
  rw [cell_verts, List.map_append, cell_normals]

theorem loops_normals (host : Host) (s : State) :
    (BuildMesh.loops host s).verts.map (fun v => v.normal)
      = (List.range s.s_width.toNat).flatMap (fun (z : Nat) =>
          (List.range s.s_width.toNat).flatMap (fun (x : Nat) =>
            (specCellNormals s (x : Int) (z : Int)).flatMap (fun n => List.replicate 4 n))) := by
  rw [loops_verts, List.map_flatMap]
  simp only [List.map_flatMap, cell_normals]

theorem loops_verts_length (host : Host) (s : State) :
    (BuildMesh.loops host s).verts.length
      = 4 * ((List.range s.s_width.toNat).map (fun (z : Nat) =>
          ((List.range s.s_width.toNat).map (fun (x : Nat) =>
            specCellQuads s (x : Int) (z : Int))).sum)).sum := by
  have h := congrArg List.length (loops_normals host s)
  rw [List.length_map] at h
  rw [h, List.length_flatMap, ← List.sum_map_mul_left]
  congr 1
  apply List.map_congr_left
  intro z _
  simp only [Function.comp]
  rw [List.length_flatMap, ← List.sum_map_mul_left]
  congr 1
  apply List.map_congr_left
  intro x _
  simp only [Function.comp]
  exact specCellNormals_length s x z

theorem flatMap_length_const {α β : Type} (f : α → List β) (c : Nat)
    (hf : ∀ a, (f a).length = c) (l : List α) : (l.flatMap f).length = c * l.length := by
  induction l with
  | nil => simp
  | cons a l ih => simp [List.flatMap_cons, hf, ih]; ring

theorem layout_inds_length (m : Mesh) (q : Nat) (h : m.Layout q) : m.inds.length = 6 * q := by
  rw [h.2, flatMap_length_const _ 6 (fun k => by simp [quadIndices]), List.length_range]

theorem loops_inds_length (host : Host) (s : State) :
    (BuildMesh.loops host s).inds.length
      = 6 * ((List.range s.s_width.toNat).map (fun (z : Nat) =>
          ((List.range s.s_width.toNat).map (fun (x : Nat) =>
            specCellQuads s (x : Int) (z : Int))).sum)).sum := by
  obtain ⟨q, hq⟩ := loops_layout host s
  have hv := loops_verts_length host s
  rw [hq.1] at hv
  rw [layout_inds_length _ q hq]
  omega

end rendering

namespace rendering

theorem loops_congr (host : Host) (s t : State) (hp : t.s_plane = s.s_plane)
    (hw : t.s_width = s.s_width) (hy : t.s_planeY = s.s_planeY) (ha : t.s_atlas = s.s_atlas) :
    BuildMesh.loops host t = BuildMesh.loops host s := by
  cases s; cases t
  simp only at hp hw hy ha
  subst hp hw hy ha
  rfl

theorem loops_free (host : Host) (s : State) :
    BuildMesh.loops host (BuildMesh.free s) = BuildMesh.loops host s := by
  apply loops_congr <;> (unfold BuildMesh.free; simp only []; split_ifs <;> rfl)

theorem BuildMesh_indexCount (host : Host) (s : State) :
    (BuildMesh host s).s_indexCount
      = if (BuildMesh.loops host s).verts = [] ∨ (BuildMesh.loops host s).inds = []
          ∨ (BuildMesh.loops host s).inds.length > 100000000 then 0
        else (BuildMesh.loops host s).inds.length := by
  unfold BuildMesh
  simp only [loops_free, List.isEmpty_iff]
  split_ifs <;> first | rfl | (exfalso; omega) | (exfalso; tauto)

theorem BuildMesh_upload (host : Host) (s : State)
    (h : (BuildMesh.loops host s).verts ≠ []) (h2 : (BuildMesh.loops host s).inds ≠ [])
    (h3 : (BuildMesh.loops host s).inds.length ≤ 100000000) :
    (BuildMesh host s).vboData = (BuildMesh.loops host s).verts ∧
    (BuildMesh host s).eboData = (BuildMesh.loops host s).inds ∧
    (BuildMesh host s).s_indexCount = (BuildMesh.loops host s).inds.length := by
  unfold BuildMesh
  simp only [loops_free, List.isEmpty_iff]
  split_ifs <;> first | exact ⟨rfl, rfl, rfl⟩ | (exfalso; omega) | (exfalso; tauto)

theorem range_flatMap_nil {β : Type} (n : Nat) (f : Nat → List β)
    (h : ∀ k, k < n → f k = []) : (List.range n).flatMap f = [] := by
  induction n with
  | zero => simp
  | succ n ih =>
    rw [List.range_succ, List.flatMap_append, ih (fun k hk => h k (by omega))]
    simp [h n (by omega)]

theorem range_flatMap_one {β : Type} (n i : Nat) (f : Nat → List β) (hi : i < n)
    (h : ∀ k, k < n → k ≠ i → f k = []) : (List.range n).flatMap f = f i := by
  induction n with
  | zero => omega
  | succ n ih =>
    rw [List.range_succ, List.flatMap_append]
    by_cases hin : i = n
    · subst hin
      rw [range_flatMap_nil i f (fun k hk => h k (by omega) (by omega))]
      simp
    · rw [ih (by omega) (fun k hk hne => h k (by omega) hne)]
      simp [h n (by omega) (fun e => hin e.symm)]

theorem range_flatMap_two {β : Type} (n i j : Nat) (f : Nat → List β) (hij : i < j)
    (hj : j < n) (h : ∀ k, k < n → k ≠ i → k ≠ j → f k = []) :
    (List.range n).flatMap f = f i ++ f j := by
  induction n with
  | zero => omega
  | succ n ih =>
    rw [List.range_succ, List.flatMap_append]
    by_cases hjn : j = n
    · subst hjn
      rw [range_flatMap_one j i f hij (fun k hk hne => h k (by omega) hne (by omega))]
      simp
    · rw [ih (by omega) (fun k hk h1 h2 => h k (by omega) h1 h2)]
      simp [h n (by omega) (by omega) (fun e => hjn e.symm)]

theorem GetBlockAt_some_bounds (s : State) (x z : Int) (b : Block)
    (h : GetBlockAt s x z = some b) : 0 ≤ x ∧ x < s.s_width ∧ 0 ≤ z ∧ z < s.s_width := by
  unfold GetBlockAt at h
  split_ifs at h with hc
  omega

theorem GetBlockAt_outside (s : State) (x z : Int)
    (h : x < 0 ∨ z < 0 ∨ x ≥ s.s_width ∨ z ≥ s.s_width) : GetBlockAt s x z = none := by
  unfold GetBlockAt
  rw [if_pos h]

theorem specCellNormals_empty (s : State) (x z : Int) (h : GetBlockAt s x z = none) :
    specCellNormals s x z = [] := by
  simp [specCellNormals, h]

end rendering

namespace rendering

theorem range_flatMap_group {β : Type} (f : Nat → List β) (c : Nat)
    (hf : ∀ k, (f k).length = c) (n k : Nat) (hk : k < n) :
    (((List.range n).flatMap f).drop (c * k)).take c = f k := by
  induction n with
  | zero => omega
  | succ n ih =>
    have hlen : ((List.range n).flatMap f).length = c * n := by
      rw [flatMap_length_const f c hf, List.length_range]
    rw [List.range_succ, List.flatMap_append]
    by_cases hkn : k = n
    · subst hkn
      rw [← hlen, List.drop_left]
      simp [List.take_of_length_le, hf]
    · have hk2 : k < n := by omega
      have h1 : c * k + c ≤ c * n := by
        have : c * (k + 1) ≤ c * n := Nat.mul_le_mul_left c (by omega)
        rw [Nat.mul_add, Nat.mul_one] at this
        exact this
      rw [List.drop_append_of_le_length (by omega), List.take_append_of_le_length
        (by rw [List.length_drop]; omega)]
      exact ih hk2

theorem quadIndices_eq (k : Nat) :
    quadIndices (4 * k) = [4 * k % 2 ^ 32, 4 * k % 2 ^ 32 + 1, 4 * k % 2 ^ 32 + 2,
      4 * k % 2 ^ 32 + 2, 4 * k % 2 ^ 32 + 3, 4 * k % 2 ^ 32] := by
  unfold quadIndices
  norm_num
  omega

theorem layout_group (m : Mesh) (q : Nat) (h : m.Layout q) (k : Nat) (hk : k < q) :
    (m.inds.drop (6 * k)).take 6 = quadIndices (4 * k) := by
  rw [h.2]
  exact range_flatMap_group (fun k => quadIndices (4 * k)) 6 (fun k => by simp [quadIndices])
    q k hk

theorem layout_index_lt (m : Mesh) (q : Nat) (h : m.Layout q) (i : Nat) (hi : i ∈ m.inds) :
    i < m.verts.length := by
  rw [h.2, List.mem_flatMap] at hi
  obtain ⟨k, hk, hik⟩ := hi
  rw [List.mem_range] at hk
  rw [quadIndices_eq] at hik
  rw [h.1]
  have hmod : 4 * k % 2 ^ 32 ≤ 4 * k := Nat.mod_le _ _
  simp only [List.mem_cons, List.mem_singleton, List.not_mem_nil, or_false] at hik
  omega

theorem range_sum_ge (n c : Nat) (f : Nat → Nat) (h : ∀ k, k < n → c ≤ f k) :
    n * c ≤ ((List.range n).map f).sum := by
  induction n with
  | zero => simp
  | succ n ih =>
    rw [List.range_succ, List.map_append, List.sum_append]
    have h1 := ih (fun k hk => h k (by omega))
    have h2 := h n (by omega)
    simp only [List.map_cons, List.map_nil, List.sum_cons, List.sum_nil, Nat.add_zero]
    rw [Nat.succ_mul]
    omega

theorem GetBlockAt_fullGrid (w : Nat) (b : Block) (x z : Nat) (hx : x < w) (hz : z < w) :
    GetBlockAt (fullGrid w b) (x : Int) (z : Int) = some b := by
  have hw : (fullGrid w b).s_width = (w : Int) := rfl
  have hp : (fullGrid w b).s_plane = List.replicate (w * w) (some b) := rfl
  have hlt : x + z * w < w * w := by
    have : z * w + w ≤ w * w := by
      have h1 : (z + 1) * w ≤ w * w := Nat.mul_le_mul_right w (by omega)
      rw [Nat.add_mul, Nat.one_mul] at h1
      exact h1
    omega
  have hi : (idx (fullGrid w b) (x : Int) (z : Int)).toNat = x + z * w := by
    unfold idx
    rw [hw]
    have : ((x : Int) + (z : Int) * (w : Int)) = ((x + z * w : Nat) : Int) := by push_cast; ring
    rw [this, Int.toNat_ofNat]
  unfold GetBlockAt
  rw [if_neg (by rw [hw]; omega), hi, hp,
    List.getD_eq_getElem _ _ (by rw [List.length_replicate]; exact hlt), List.getElem_replicate]

theorem fullGrid_verts_ge (host : Host) (w : Nat) (b : Block) :
    4 * (w * (w * 2)) ≤ (BuildMesh.loops host (fullGrid w b)).verts.length := by
  rw [loops_verts_length]
  have hw : (fullGrid w b).s_width.toNat = w := by
    show ((w : Int)).toNat = w
    exact Int.toNat_ofNat w
  rw [hw]
  apply Nat.mul_le_mul_left
  apply range_sum_ge
  intro z hz
  apply range_sum_ge
  intro x hx
  unfold specCellQuads
  rw [GetBlockAt_fullGrid w b x z hx hz]
  simp

end rendering

/-! ## Lemmas on the atlas -/

namespace TextureAtlas

theorem IsValid_pos (a : TextureAtlas) (h : a.IsValid = true) :
    a.texId_ ≠ 0 ∧ 0 < a.cols_ ∧ 0 < a.rows_ := by
  simpa [IsValid, and_assoc] using h

theorem GetTileUV_valid (a : TextureAtlas) (h : a.IsValid = true) (i : Int) :
    a.GetTileUV i
      = a.tileRect ((max i 0) % a.cols_) (min ((max i 0) / a.cols_) (a.rows_ - 1)) := by
  obtain ⟨_, hc, hr⟩ := IsValid_pos a h
  have hi : 0 ≤ max i 0 := le_max_right _ _
  have hm : (if i < 0 then 0 else i) = max i 0 := by
    split_ifs with h1
    · rw [max_eq_right (by omega)]
    · rw [max_eq_left (by omega)]
  have hcol0 : 0 ≤ (max i 0) % a.cols_ := Int.emod_nonneg _ (by omega)
  have hcol1 : (max i 0) % a.cols_ < a.cols_ := Int.emod_lt_of_pos _ hc
  have hrow0 : 0 ≤ (max i 0) / a.cols_ := Int.ediv_nonneg hi (by omega)
  have h1 : ¬ ((max i 0) % a.cols_ < 0) := by omega
  have h2 : ¬ ((max i 0) / a.cols_ < 0) := by omega
  have h3 : ¬ ((max i 0) % a.cols_ ≥ a.cols_) := by omega
  unfold GetTileUV
  simp only [h, not_true_eq_false, if_false, hm]
  rw [Int.tmod_eq_emod hi (by omega), Int.tdiv_eq_ediv hi (by omega)]
  simp only [if_neg h1, if_neg h2, if_neg h3]
  by_cases hrow : (max i 0) / a.cols_ ≥ a.rows_
  · rw [if_pos hrow, min_eq_right (by omega)]
    rfl
  · rw [if_neg hrow, min_eq_left (by omega)]
    rfl

theorem tdiv_pos_facts (w tw : Int) (htw : 0 < tw) (h : 0 < w.tdiv tw) :
    0 < w ∧ w.tdiv tw * tw ≤ w := by
  by_cases hw : 0 ≤ w
  · rw [Int.tdiv_eq_ediv hw (by omega)] at h ⊢
    refine ⟨?_, Int.ediv_mul_le w (by omega)⟩
    rcases hw.lt_or_eq with h1 | h1
    · exact h1
    · rw [← h1] at h
      simp at h
  · exfalso
    have h1 : 0 ≤ (-w).tdiv tw := Int.tdiv_nonneg (by omega) (by omega)
    rw [Int.neg_tdiv] at h1
    omega

theorem LoadFromFile_true (stbi_load : String → Bool → Option (Int × Int)) (gen : Nat)
    (a0 a : TextureAtlas) (path : String) (tw th : Int) (flip : Bool)
    (h : LoadFromFile stbi_load gen a0 path tw th flip = (true, a)) :
    ∃ w h, stbi_load path flip = some (w, h) ∧ 0 < tw ∧ 0 < th ∧
      0 < w.tdiv tw ∧ 0 < h.tdiv th ∧
      a = ⟨gen, w, h, tw, th, w.tdiv tw, h.tdiv th⟩ := by
  unfold LoadFromFile at h
  simp only [] at h
  cases hd : stbi_load path flip with
  | none => rw [hd] at h; simp at h
  | some wh =>
    obtain ⟨w, ht⟩ := wh
    rw [hd] at h
    simp only [] at h
    split_ifs at h <;> simp only [Prod.mk.injEq] at h <;>
      first
        | (exfalso; exact Bool.noConfusion h.1)
        | exact ⟨w, ht, rfl, by omega, by omega, by omega, by omega, h.2.symm⟩

end TextureAtlas

/-! ## Lemmas on quads, UVs and the atlas fallback -/

namespace rendering

theorem cell_quads (host : Host) (s : State) (half x z : Int) (b : Block)
    (h : GetBlockAt s x z = some b) :
    (BuildMesh.cell host s half x z Mesh.empty).verts
      = (specCellFaces s x z).flatMap (cellQuad host s half x z b) := by
  unfold BuildMesh.cell specCellFaces
  rw [h]
  simp only []
  split_ifs <;>
    simp_all [pushQuad, Mesh.empty, cellQuad, quadPositions, faceNormal, FACE_TOP, FACE_BOTTOM,
      FACE_NORTH, FACE_SOUTH, FACE_WEST, FACE_EAST]

theorem cell_empty (host : Host) (s : State) (half x z : Int)
    (h : GetBlockAt s x z = none) :
    (BuildMesh.cell host s half x z Mesh.empty).verts = [] := by
  simp [BuildMesh.cell, h, Mesh.empty]

theorem cellQuad_uvs_atlas (host : Host) (s : State) (atlas : TextureAtlas) (half x z : Int)
    (b : Block) (f : Int) (ha : s.s_atlas = some atlas) (hv : atlas.IsValid = true) :
    (cellQuad host s half x z b f).map (fun v => (v.normal, v.uv))
      = (specQuadUVs (atlas.GetTileUV (b.GetTileForFace f))).map
          (fun uv => (faceNormal f, uv)) := by
  simp [cellQuad, pushQuad, Mesh.empty, GetFaceUVsFromAtlas, ha, hv, specQuadUVs]

theorem cell_uvs_atlas (host : Host) (s : State) (atlas : TextureAtlas) (half x z : Int)
    (ha : s.s_atlas = some atlas) (hv : atlas.IsValid = true) :
    (BuildMesh.cell host s half x z Mesh.empty).verts.map (fun v => (v.normal, v.uv))
      = specCellUVs s atlas x z := by
  unfold specCellUVs
  cases h : GetBlockAt s x z with
  | none => rw [cell_empty host s half x z h]; rfl
  | some b =>
    rw [cell_quads host s half x z b h, List.map_flatMap]
    simp only [cellQuad_uvs_atlas host s atlas half x z b _ ha hv]

theorem cellQuad_uvs_unit (host : Host) (s : State) (half x z : Int) (b : Block) (f : Int)
    (hno : s.s_atlas = none ∨ ∃ a, s.s_atlas = some a ∧ a.IsValid = false) :
    (cellQuad host s half x z b f).map (fun v => v.uv) = unitUVs := by
  rcases hno with h | ⟨a, h, hv⟩ <;>
    simp [cellQuad, pushQuad, Mesh.empty, GetFaceUVsFromAtlas, h, unitUVs, *]

theorem units_append (q1 q2 : Nat) :
    (List.range q1).flatMap (fun _ => unitUVs) ++ (List.range q2).flatMap (fun _ => unitUVs)
      = (List.range (q1 + q2)).flatMap (fun _ => unitUVs) := by
  induction q2 with
  | zero => simp
  | succ n ih =>
    rw [← Nat.add_assoc, List.range_succ, List.range_succ, List.flatMap_append,
      List.flatMap_append, ← List.append_assoc, ih]
    rfl

theorem units_flatMap {α : Type} (l : List α) (f : α → List glm.vec2)
    (hf : ∀ a ∈ l, ∃ q, f a = (List.range q).flatMap (fun _ => unitUVs)) :
    ∃ q, l.flatMap f = (List.range q).flatMap (fun _ => unitUVs) := by
  induction l with
  | nil => exact ⟨0, rfl⟩
  | cons a l ih =>
    obtain ⟨q1, h1⟩ := hf a (List.mem_cons_self a l)
    obtain ⟨q2, h2⟩ := ih (fun c hc => hf c (List.mem_cons_of_mem a hc))
    exact ⟨q1 + q2, by rw [List.flatMap_cons, h1, h2, units_append]⟩

theorem cell_uvs_unit (host : Host) (s : State) (half x z : Int)
    (hno : s.s_atlas = none ∨ ∃ a, s.s_atlas = some a ∧ a.IsValid = false) :
    ∃ q, (BuildMesh.cell host s half x z Mesh.empty).verts.map (fun v => v.uv)
      = (List.range q).flatMap (fun _ => unitUVs) := by
  cases h : GetBlockAt s x z with
  | none => exact ⟨0, by rw [cell_empty host s half x z h]; rfl⟩
  | some b =>
    rw [cell_quads host s half x z b h, List.map_flatMap]
    apply units_flatMap
    intro f _
    exact ⟨1, by rw [cellQuad_uvs_unit host s half x z b f hno]; simp [List.range_succ]⟩

theorem loops_uvs_unit (host : Host) (s : State)
    (hno : s.s_atlas = none ∨ ∃ a, s.s_atlas = some a ∧ a.IsValid = false) :
    ∃ q, (BuildMesh.loops host s).verts.map (fun v => v.uv)
      = (List.range q).flatMap (fun _ => unitUVs) := by
  rw [loops_verts, List.map_flatMap]
  apply units_flatMap
  intro z _
  rw [List.map_flatMap]
  apply units_flatMap
  intro x _
  exact cell_uvs_unit host s _ _ _ hno

theorem f32_small (n : Int) (h : n.natAbs < 2 ^ 24) : f32 n = n := by
  unfold f32
  simp only []
  rw [if_pos h]

theorem f32_exact (n : Int) (h1 : -2 ^ 24 ≤ n) (h2 : n ≤ 2 ^ 24) : f32 n = n := by
  by_cases h : n.natAbs < 2 ^ 24
  · exact f32_small n h
  · have h3 : n = 2 ^ 24 ∨ n = -2 ^ 24 := by omega
    rcases h3 with h3 | h3 <;> subst h3 <;> decide

theorem fadd_exact (n : Int) (h1 : -2 ^ 24 ≤ n) (h2 : n < 2 ^ 24) : fadd n 1 = n + 1 :=
  f32_exact (n + 1) (by omega) (by omega)

theorem cellQuad_winding (host : Host) (s : State) (half x z : Int) (b : Block) (f : Int)
    (hf : f = 0 ∨ f = 1 ∨ f = 2 ∨ f = 3 ∨ f = 4 ∨ f = 5)
    (hx : -2 ^ 24 ≤ x - half ∧ x - half < 2 ^ 24)
    (hy : -2 ^ 24 ≤ s.s_planeY ∧ s.s_planeY < 2 ^ 24)
    (hz : -2 ^ 24 ≤ z - half ∧ z - half < 2 ^ 24) :
    windingNormal (cellQuad host s half x z b f)
      = if f = 0 ∨ f = 1 then (⟨0, 0, 0⟩ : glm.vec3).sub (faceNormal f) else faceNormal f := by
  have ex := f32_exact _ hx.1 hx.2.le
  have ex1 := fadd_exact _ hx.1 hx.2
  have ey := f32_exact _ hy.1 hy.2.le
  have ey1 := fadd_exact _ hy.1 hy.2
  have ez := f32_exact _ hz.1 hz.2.le
  have ez1 := fadd_exact _ hz.1 hz.2
  rcases hf with h | h | h | h | h | h <;> subst h <;>
    simp [cellQuad, pushQuad, Mesh.empty, quadPositions, windingNormal, glm.cross, glm.vec3.sub,
      faceNormal, ex, ex1, ey, ey1, ez, ez1]

end rendering

namespace TextureAtlas

theorem LoadFromFile_false_texId (stbi_load : String → Bool → Option (Int × Int)) (gen : Nat)
    (a : TextureAtlas) (path : String) (tw th : Int) (flip : Bool)
    (hfail : (LoadFromFile stbi_load gen a path tw th flip).1 = false) :
    (LoadFromFile stbi_load gen a path tw th flip).2.texId_ = 0 := by
  revert hfail
  unfold LoadFromFile
  simp only []
  cases hd : stbi_load path flip with
  | none =>
    intro _
    by_cases h0 : a.texId_ = 0 <;> simp [h0]
  | some wh =>
    obtain ⟨w, h⟩ := wh
    simp only []
    intro hfail
    by_cases h0 : a.texId_ = 0 <;> by_cases h1 : tw ≤ 0 ∨ th ≤ 0 <;>
      by_cases h2 : w.tdiv tw ≤ 0 ∨ h.tdiv th ≤ 0 <;>
      simp [h0, h1, h2] at hfail ⊢

theorem IsValid_of_texId_zero (a : TextureAtlas) (h : a.texId_ = 0) : a.IsValid = false := by
  simp [IsValid, h]

theorem GetTileUV_invalid (a : TextureAtlas) (h : a.IsValid = false) (i : Int) :
    a.GetTileUV i = ⟨0, 0, 1, 1⟩ := by
  unfold GetTileUV
  simp [h]

end TextureAtlas

/-! ## Lemmas on `BuildMesh`, `SetAtlas` and single quads -/

namespace rendering

theorem free_fields (s : State) :
    (BuildMesh.free s).s_plane = s.s_plane ∧ (BuildMesh.free s).s_width = s.s_width ∧
    (BuildMesh.free s).s_planeY = s.s_planeY ∧ (BuildMesh.free s).s_atlas = s.s_atlas ∧
    (BuildMesh.free s).s_program = s.s_program ∧ (BuildMesh.free s).cerr = s.cerr ∧
    (BuildMesh.free s).s_vao = 0 ∧ (BuildMesh.free s).s_vbo = 0 ∧
    (BuildMesh.free s).s_ebo = 0 ∧ (BuildMesh.free s).s_indexCount = 0 := by
  unfold BuildMesh.free
  simp only []
  by_cases h1 : s.s_vao = 0 <;> by_cases h2 : s.s_vbo = 0 <;> by_cases h3 : s.s_ebo = 0 <;>
    simp [h1, h2, h3]

theorem free_buffers (s : State) (hv : s.s_vbo = 0) (he : s.s_ebo = 0) :
    (BuildMesh.free s).vboData = s.vboData ∧ (BuildMesh.free s).eboData = s.eboData := by
  unfold BuildMesh.free
  simp only []
  by_cases h1 : s.s_vao = 0 <;> simp [h1, hv, he]

theorem BuildMesh_noupload (host : Host) (s : State)
    (h : (BuildMesh.loops host s).verts = [] ∨ (BuildMesh.loops host s).inds = [] ∨
      (BuildMesh.loops host s).inds.length > 100000000) :
    (BuildMesh host s).s_indexCount = 0 ∧ (BuildMesh host s).s_vao = 0 ∧
    (BuildMesh host s).s_vbo = 0 ∧ (BuildMesh host s).s_ebo = 0 ∧
    (BuildMesh host s).vboData = (BuildMesh.free s).vboData ∧
    (BuildMesh host s).eboData = (BuildMesh.free s).eboData := by
  obtain ⟨_, _, _, _, _, _, f1, f2, f3, _⟩ := free_fields s
  unfold BuildMesh
  simp only [loops_free, List.isEmpty_iff]
  split_ifs <;>
    first
      | exact ⟨rfl, f1, f2, f3, rfl, rfl⟩
      | (exfalso; tauto)

theorem BuildMesh_tooLarge_cerr (host : Host) (s : State)
    (h : (BuildMesh.loops host s).inds.length > 100000000) :
    (BuildMesh host s).cerr = s.cerr ++
      ["BuildMesh: indices too large (" ++ toString (BuildMesh.loops host s).inds.length
        ++ "), aborting\n"] := by
  obtain ⟨q, hq⟩ := loops_layout host s
  have hi := layout_inds_length _ q hq
  have hv : (BuildMesh.loops host s).verts ≠ [] := by
    intro h0
    have := hq.1
    rw [h0] at this
    simp at this
    omega
  have hi2 : (BuildMesh.loops host s).inds ≠ [] := by
    intro h0
    rw [h0] at h
    simp at h
  obtain ⟨_, _, _, _, _, hc, _⟩ := free_fields s
  unfold BuildMesh
  simp only [loops_free, List.isEmpty_iff]
  rw [if_neg (by tauto), if_pos h]
  simp only [hc]

theorem BuildMesh_fields (host : Host) (s : State) :
    (BuildMesh host s).s_plane = s.s_plane ∧ (BuildMesh host s).s_width = s.s_width ∧
    (BuildMesh host s).s_planeY = s.s_planeY ∧ (BuildMesh host s).s_atlas = s.s_atlas ∧
    (BuildMesh host s).s_program = s.s_program := by
  obtain ⟨f1, f2, f3, f4, f5, _⟩ := free_fields s
  unfold BuildMesh
  simp only []
  split_ifs <;> exact ⟨f1, f2, f3, f4, f5⟩

theorem loops_BuildMesh (host : Host) (s : State) :
    BuildMesh.loops host (BuildMesh host s) = BuildMesh.loops host s := by
  obtain ⟨f1, f2, f3, f4, _⟩ := BuildMesh_fields host s
  exact loops_congr host s _ f1 f2 f3 f4

theorem BuildMesh_twice (host : Host) (s : State) :
    (BuildMesh host (BuildMesh host s)).vboData = (BuildMesh host s).vboData ∧
    (BuildMesh host (BuildMesh host s)).eboData = (BuildMesh host s).eboData ∧
    (BuildMesh host (BuildMesh host s)).s_indexCount = (BuildMesh host s).s_indexCount := by
  by_cases h : (BuildMesh.loops host s).verts = [] ∨ (BuildMesh.loops host s).inds = [] ∨
      (BuildMesh.loops host s).inds.length > 100000000
  · have h1 := BuildMesh_noupload host s h
    have h2 := BuildMesh_noupload host (BuildMesh host s) (by rw [loops_BuildMesh]; exact h)
    have h3 := free_buffers (BuildMesh host s) h1.2.2.1 h1.2.2.2.1
    exact ⟨by rw [h2.2.2.2.2.1, h3.1], by rw [h2.2.2.2.2.2, h3.2], by rw [h2.1, h1.1]⟩
  · have hv : (BuildMesh.loops host s).verts ≠ [] := by tauto
    have hi : (BuildMesh.loops host s).inds ≠ [] := by tauto
    have hl : (BuildMesh.loops host s).inds.length ≤ 100000000 := by
      by_contra hc
      exact h (Or.inr (Or.inr (by omega)))
    have h1 := BuildMesh_upload host s hv hi hl
    have h2 := BuildMesh_upload host (BuildMesh host s) (by rw [loops_BuildMesh]; exact hv)
      (by rw [loops_BuildMesh]; exact hi) (by rw [loops_BuildMesh]; exact hl)
    rw [loops_BuildMesh] at h2
    exact ⟨by rw [h2.1, h1.1], by rw [h2.2.1, h1.2.1], by rw [h2.2.2, h1.2.2]⟩

theorem SetAtlas_same (host : Host) (t : State) (a : Option TextureAtlas)
    (ha : t.s_atlas = a) (hp : t.s_plane ≠ []) : SetAtlas host t a = BuildMesh host t := by
  cases t
  simp only at ha hp
  subst ha
  unfold SetAtlas
  simp [hp]

theorem fullGrid_inds_ge (host : Host) (w : Nat) (b : Block) :
    6 * (w * (w * 2)) ≤ (BuildMesh.loops host (fullGrid w b)).inds.length := by
  obtain ⟨q, hq⟩ := loops_layout host (fullGrid w b)
  have h1 := fullGrid_verts_ge host w b
  rw [layout_inds_length _ q hq]
  rw [hq.1] at h1
  omega

theorem cellQuad_length (host : Host) (s : State) (half x z : Int) (b : Block) (f : Int) :
    (cellQuad host s half x z b f).length = 4 := by
  simp [cellQuad, pushQuad, Mesh.empty]

theorem cellQuad_normals (host : Host) (s : State) (half x z : Int) (b : Block) (f : Int) :
    (cellQuad host s half x z b f).map (fun v => v.normal) = List.replicate 4 (faceNormal f) := by
  simp [cellQuad, pushQuad, Mesh.empty, List.replicate]

theorem single_cell_verts (host : Host) (s : State) (x0 z0 : Int) (b : Block)
    (hocc : GetBlockAt s x0 z0 = some b)
    (hrest : ∀ x z : Int, 0 ≤ x → x < s.s_width → 0 ≤ z → z < s.s_width →
      (x ≠ x0 ∨ z ≠ z0) → GetBlockAt s x z = none) :
    (BuildMesh.loops host s).verts
      = (specCellFaces s x0 z0).flatMap (cellQuad host s (s.s_width.tdiv 2) x0 z0 b) := by
  obtain ⟨hx0, hx1, hz0, hz1⟩ := GetBlockAt_some_bounds s x0 z0 b hocc
  rw [loops_verts, range_flatMap_one s.s_width.toNat z0.toNat _ (by omega)]
  · rw [range_flatMap_one s.s_width.toNat x0.toNat _ (by omega)]
    · rw [Int.toNat_of_nonneg hx0, Int.toNat_of_nonneg hz0, cell_quads host s _ x0 z0 b hocc]
    · intro k hk hne
      exact cell_empty host s _ _ _
        (hrest _ _ (by omega) (by omega) (by omega) (by omega) (Or.inl (by omega)))
  · intro k hk hne
    apply range_flatMap_nil
    intro j hj
    exact cell_empty host s _ _ _
      (hrest _ _ (by omega) (by omega) (by omega) (by omega) (Or.inr (by omega)))

theorem quadAt_faces (g : Int → List Vertex) (hg : ∀ f, (g f).length = 4) (k : Nat)
    (hk : k < 6) : quadAt (([0, 1, 2, 3, 4, 5] : List Int).flatMap g) k = g (k : Int) := by
  have h : ([0, 1, 2, 3, 4, 5] : List Int).flatMap g
      = (List.range 6).flatMap (fun (n : Nat) => g (n : Int)) := by
    simp [List.range_succ]
  unfold quadAt
  rw [h]
  exact range_flatMap_group (fun (n : Nat) => g (n : Int)) 4 (fun n => hg _) 6 k hk

theorem oneCell_rest (x z : Int) (hx0 : 0 ≤ x) (hx1 : x < oneCell.s_width) (hz0 : 0 ≤ z)
    (hz1 : z < oneCell.s_width) (hne : x ≠ 1 ∨ z ≠ 0) : GetBlockAt oneCell x z = none := by
  have hw : oneCell.s_width = 2 := rfl
  rw [hw] at hx1 hz1
  interval_cases x <;> interval_cases z <;> first | rfl | omega

end rendering

/-! ## Lemmas on the cell store, `InitFlatPlane` and reachable states -/

namespace rendering

theorem idx_lt (w x z : Int) (hx0 : 0 ≤ x) (hx1 : x < w) (hz0 : 0 ≤ z) (hz1 : z < w) :
    0 ≤ x + z * w ∧ x + z * w < w * w := by
  have h1 : 0 ≤ z * w := Int.mul_nonneg hz0 (by omega)
  have h2 : (z + 1) * w ≤ w * w := Int.mul_le_mul_of_nonneg_right (by omega) (by omega)
  have h3 : (z + 1) * w = z * w + w := by ring
  omega

theorem idx_inj (w x z x2 z2 : Int) (hx0 : 0 ≤ x) (hx1 : x < w) (hx20 : 0 ≤ x2)
    (hx21 : x2 < w) (h : x + z * w = x2 + z2 * w) : x = x2 ∧ z = z2 := by
  have hz : z = z2 := by
    rcases lt_trichotomy z z2 with hlt | heq | hgt
    · exfalso
      have h2 : (z + 1) * w ≤ z2 * w := Int.mul_le_mul_of_nonneg_right (by omega) (by omega)
      have h3 : (z + 1) * w = z * w + w := by ring
      omega
    · exact heq
    · exfalso
      have h2 : (z2 + 1) * w ≤ z * w := Int.mul_le_mul_of_nonneg_right (by omega) (by omega)
      have h3 : (z2 + 1) * w = z2 * w + w := by ring
      omega
  subst hz
  exact ⟨by omega, rfl⟩

theorem replicate_append_cons {α : Type} (a : Nat) (v : α) (l : List α) :
    List.replicate a v ++ v :: l = v :: (List.replicate a v ++ l) := by
  induction a with
  | zero => rfl
  | succ a ih => simp [List.replicate_succ, ih]

theorem set_replicate_append {α : Type} (a b : Nat) (v n : α) :
    (List.replicate a v ++ List.replicate (b + 1) n).set a v
      = List.replicate (a + 1) v ++ List.replicate b n := by
  rw [List.set_append_right _ _ (by simp)]
  simp only [List.length_replicate, Nat.sub_self, List.replicate_succ, List.set_cons_zero,
    List.cons_append]
  exact replicate_append_cons a v _

theorem fill_row {α : Type} (w z j N : Nat) (v n : α) (hN : z * w + j ≤ N) :
    (List.range j).foldl (fun plane (x : Nat) => plane.set (x + z * w) v)
        (List.replicate (z * w) v ++ List.replicate (N - z * w) n)
      = List.replicate (z * w + j) v ++ List.replicate (N - (z * w + j)) n := by
  induction j with
  | zero => simp
  | succ j ih =>
    rw [List.range_succ, List.foldl_append, ih (by omega)]
    simp only [List.foldl_cons, List.foldl_nil]
    have h1 : N - (z * w + j) = (N - (z * w + (j + 1))) + 1 := by omega
    rw [h1, Nat.add_comm j (z * w), set_replicate_append]
    rfl

theorem fill_rows {α : Type} (w k N : Nat) (v n : α) (hN : k * w ≤ N) :
    (List.range k).foldl (fun plane (z : Nat) =>
        (List.range w).foldl (fun plane (x : Nat) => plane.set (x + z * w) v) plane)
        (List.replicate N n)
      = List.replicate (k * w) v ++ List.replicate (N - k * w) n := by
  induction k with
  | zero => simp
  | succ k ih =>
    have hk : k * w + w ≤ N := by rw [Nat.succ_mul] at hN; exact hN
    rw [List.range_succ, List.foldl_append, ih (by omega)]
    simp only [List.foldl_cons, List.foldl_nil]
    rw [fill_row w k w N v n hk, Nat.succ_mul]

theorem fill_all {α : Type} (w : Nat) (v n : α) :
    (List.range w).foldl (fun plane (z : Nat) =>
        (List.range w).foldl (fun plane (x : Nat) => plane.set (x + z * w) v) plane)
        (List.replicate (w * w) n)
      = List.replicate (w * w) v := by
  rw [fill_rows w w (w * w) v n (le_refl _)]
  simp

theorem foldl_set_length {α β : Type} (l : List β) (f : β → Nat) (v : α) (plane : List α) :
    (l.foldl (fun plane b => plane.set (f b) v) plane).length = plane.length := by
  induction l generalizing plane with
  | nil => rfl
  | cons b l ih => rw [List.foldl_cons, ih, List.length_set]

theorem foldl_foldl_set_length {α β γ : Type} (l1 : List β) (l2 : List γ) (f : γ → β → Nat)
    (v : α) (plane : List α) :
    (l1.foldl (fun plane z => l2.foldl (fun plane x => plane.set (f x z) v) plane)
      plane).length = plane.length := by
  induction l1 generalizing plane with
  | nil => rfl
  | cons b l ih => rw [List.foldl_cons, ih, foldl_set_length]

theorem EnsureProgram_fields (gl : ShaderHost) (s : State) :
    (EnsureProgram gl s).state.s_plane = s.s_plane ∧
    (EnsureProgram gl s).state.s_width = s.s_width ∧
    (EnsureProgram gl s).state.s_planeY = s.s_planeY ∧
    (EnsureProgram gl s).state.s_atlas = s.s_atlas := by
  unfold EnsureProgram compileShader linkProgram
  cases gl.vertex <;> cases gl.fragment <;> cases gl.program <;>
    simp only [] <;> split_ifs <;> exact ⟨rfl, rfl, rfl, rfl⟩

theorem InitFlatPlane_outcome (W : Int) (host : Host) (gl : ShaderHost) (s : State)
    (p : Block) (y : Int) :
    ∃ s3 : State, s3.s_width = W ∧ s3.s_planeY = y ∧ s3.s_atlas = s.s_atlas ∧
      s3.s_plane = (List.range W.toNat).foldl (fun plane (z : Nat) =>
        (List.range W.toNat).foldl (fun plane (x : Nat) =>
          plane.set ((x : Int) + (z : Int) * W).toNat (some p)) plane)
        (List.replicate (W * W).toNat none) ∧
      (((InitFlatPlane W host gl s p y).exn ≠ none ∧
          (InitFlatPlane W host gl s p y).state = s3) ∨
        ((InitFlatPlane W host gl s p y).exn = none ∧
          (InitFlatPlane W host gl s p y).state = BuildMesh host s3)) := by
  unfold InitFlatPlane
  have hf := EnsureProgram_fields gl (InitFlatPlane.fill W s p y)
  cases he : EnsureProgram gl (InitFlatPlane.fill W s p y) with
  | mk s3 e =>
    rw [he] at hf
    simp only at hf
    obtain ⟨f1, f2, f3, f4⟩ := hf
    refine ⟨s3, ?_, ?_, ?_, ?_, ?_⟩
    · rw [f2]; rfl
    · rw [f3]; rfl
    · rw [f4]; rfl
    · rw [f1]; rfl
    · cases e with
      | none => exact Or.inr ⟨rfl, rfl⟩
      | some e => exact Or.inl ⟨by simp, rfl⟩

theorem InitFlatPlane_store (W : Int) (host : Host) (gl : ShaderHost) (s : State)
    (p : Block) (y : Int) :
    (InitFlatPlane W host gl s p y).state.s_width = W ∧
    (InitFlatPlane W host gl s p y).state.s_plane.length = (W * W).toNat := by
  obtain ⟨s3, hw, _, _, hp, hcase⟩ := InitFlatPlane_outcome W host gl s p y
  have hlen : s3.s_plane.length = (W * W).toNat := by
    rw [hp, foldl_foldl_set_length, List.length_replicate]
  rcases hcase with ⟨_, h⟩ | ⟨_, h⟩
  · rw [h]
    exact ⟨hw, hlen⟩
  · obtain ⟨f1, f2, _⟩ := BuildMesh_fields host s3
    rw [h, f1, f2]
    exact ⟨hw, hlen⟩

theorem InitFlatPlane_full (w : Nat) (host : Host) (gl : ShaderHost) (s : State)
    (p : Block) (y : Int) :
    (InitFlatPlane (w : Int) host gl s p y).state.s_width = (w : Int) ∧
    (InitFlatPlane (w : Int) host gl s p y).state.s_planeY = y ∧
    (InitFlatPlane (w : Int) host gl s p y).state.s_plane = List.replicate (w * w) (some p) := by
  obtain ⟨s3, hw, hy, _, hp, hcase⟩ := InitFlatPlane_outcome (w : Int) host gl s p y
  have hplane : s3.s_plane = List.replicate (w * w) (some p) := by
    rw [hp]
    have e1 : ((w : Int)).toNat = w := Int.toNat_ofNat w
    have e2 : ((w : Int) * (w : Int)).toNat = w * w := by
      rw [← Int.natCast_mul, Int.toNat_ofNat]
    have e3 : ∀ x z : Nat, ((x : Int) + (z : Int) * (w : Int)).toNat = x + z * w := by
      intro x z
      have : ((x : Int) + (z : Int) * (w : Int)) = ((x + z * w : Nat) : Int) := by
        push_cast
        ring
      rw [this, Int.toNat_ofNat]
    simp only [e1, e2, e3]
    exact fill_all w (some p) none
  rcases hcase with ⟨_, h⟩ | ⟨_, h⟩
  · rw [h]
    exact ⟨hw, hy, hplane⟩
  · obtain ⟨f1, f2, f3, _⟩ := BuildMesh_fields host s3
    rw [h, f1, f2, f3]
    exact ⟨hw, hy, hplane⟩

theorem GetBlockAt_replicate (t : State) (w : Nat) (b : Block) (hw : t.s_width = (w : Int))
    (hp : t.s_plane = List.replicate (w * w) (some b)) (x z : Int)
    (hx0 : 0 ≤ x) (hx1 : x < w) (hz0 : 0 ≤ z) (hz1 : z < w) :
    GetBlockAt t x z = some b := by
  obtain ⟨h0, h1⟩ := idx_lt (w : Int) x z hx0 hx1 hz0 hz1
  have hlt : (x + z * (w : Int)).toNat < w * w := by
    have : ((w * w : Nat) : Int) = (w : Int) * (w : Int) := by push_cast; ring
    omega
  unfold GetBlockAt idx
  rw [if_neg (by rw [hw]; omega), hw, hp,
    List.getD_eq_getElem _ _ (by rw [List.length_replicate]; exact hlt), List.getElem_replicate]

theorem range_sum_ite (n i c : Nat) (hi : i < n) :
    ((List.range n).map (fun x => if x = i then c else 0)).sum = c := by
  induction n with
  | zero => omega
  | succ n ih =>
    rw [List.range_succ, List.map_append, List.sum_append]
    by_cases hin : i = n
    · subst hin
      have h0 : ((List.range i).map (fun x => if x = i then c else 0)).sum = 0 := by
        apply List.sum_eq_zero
        intro v hv
        rw [List.mem_map] at hv
        obtain ⟨x, hx, rfl⟩ := hv
        rw [List.mem_range] at hx
        rw [if_neg (by omega)]
      rw [h0]
      simp
    · rw [ih (by omega)]
      simp [Ne.symm hin]

theorem range_sum_border (n a c : Nat) (hn : 1 ≤ n) (f : Nat → Nat)
    (hf : ∀ x, x < n →
      f x = a + (if x = 0 then c else 0) + (if x + 1 = n then c else 0)) :
    ((List.range n).map f).sum = n * a + 2 * c := by
  have h1 : (List.range n).map f = (List.range n).map (fun x =>
      (a + (if x = 0 then c else 0)) + (if x = n - 1 then c else 0)) := by
    apply List.map_congr_left
    intro x hx
    rw [List.mem_range] at hx
    rw [hf x hx]
    by_cases h : x + 1 = n
    · rw [if_pos h, if_pos (show x = n - 1 by omega)]
    · rw [if_neg h, if_neg (show ¬ x = n - 1 by omega)]
  rw [h1, List.sum_map_add, List.sum_map_add, range_sum_ite n 0 c (by omega),
    range_sum_ite n (n - 1) c (by omega)]
  simp only [List.map_const', List.length_range, List.sum_replicate, smul_eq_mul]
  omega

theorem full_specCellQuads (t : State) (w : Nat) (b : Block) (hw : t.s_width = (w : Int))
    (hfull : ∀ x z : Int, 0 ≤ x → x < w → 0 ≤ z → z < w → GetBlockAt t x z = some b)
    (x z : Nat) (hx : x < w) (hz : z < w) :
    specCellQuads t (x : Int) (z : Int)
      = (2 + (if z = 0 then 1 else 0) + (if z + 1 = w then 1 else 0))
        + (if x = 0 then 1 else 0) + (if x + 1 = w then 1 else 0) := by
  have hc := hfull x z (by omega) (by omega) (by omega) (by omega)
  have hn : (GetBlockAt t (x : Int) ((z : Int) - 1)).isNone = decide (z = 0) := by
    by_cases h : z = 0
    · rw [GetBlockAt_outside t _ _ (by omega)]
      simp [h]
    · rw [hfull x ((z : Int) - 1) (by omega) (by omega) (by omega) (by omega)]
      simp [h]
  have hs : (GetBlockAt t (x : Int) ((z : Int) + 1)).isNone = decide (z + 1 = w) := by
    by_cases h : z + 1 = w
    · rw [GetBlockAt_outside t _ _ (by rw [hw]; omega)]
      simp [h]
    · rw [hfull x ((z : Int) + 1) (by omega) (by omega) (by omega) (by omega)]
      simp [h]
  have hwe : (GetBlockAt t ((x : Int) - 1) (z : Int)).isNone = decide (x = 0) := by
    by_cases h : x = 0
    · rw [GetBlockAt_outside t _ _ (by omega)]
      simp [h]
    · rw [hfull ((x : Int) - 1) z (by omega) (by omega) (by omega) (by omega)]
      simp [h]
  have he : (GetBlockAt t ((x : Int) + 1) (z : Int)).isNone = decide (x + 1 = w) := by
    by_cases h : x + 1 = w
    · rw [GetBlockAt_outside t _ _ (by rw [hw]; omega)]
      simp [h]
    · rw [hfull ((x : Int) + 1) z (by omega) (by omega) (by omega) (by omega)]
      simp [h]
  unfold specCellQuads emptyNeighbours
  rw [hc, hn, hs, hwe, he]
  simp only [Option.isNone_some, Bool.false_eq_true, if_false, decide_eq_true_eq]
  omega

theorem full_quads (t : State) (w : Nat) (b : Block) (hw : t.s_width = (w : Int))
    (hfull : ∀ x z : Int, 0 ≤ x → x < w → 0 ≤ z → z < w → GetBlockAt t x z = some b)
    (hw1 : 1 ≤ w) :
    ((List.range t.s_width.toNat).map (fun (z : Nat) =>
      ((List.range t.s_width.toNat).map (fun (x : Nat) =>
        specCellQuads t (x : Int) (z : Int))).sum)).sum = 2 * w * w + 4 * w := by
  have e1 : t.s_width.toNat = w := by rw [hw]; exact Int.toNat_ofNat w
  rw [e1]
  have hrow : ∀ z, z < w →
      ((List.range w).map (fun (x : Nat) => specCellQuads t (x : Int) (z : Int))).sum
        = (2 * w + 2) + (if z = 0 then w else 0) + (if z + 1 = w then w else 0) := by
    intro z hz
    rw [range_sum_border w (2 + (if z = 0 then 1 else 0) + (if z + 1 = w then 1 else 0)) 1 hw1
      _ (fun x hx => full_specCellQuads t w b hw hfull x z hx hz)]
    split_ifs <;> ring
  rw [range_sum_border w (2 * w + 2) w hw1 _ hrow]
  ring

theorem EnsureProgram_exn (gl : ShaderHost) (s : State) :
    (EnsureProgram gl s).exn = none ↔
      (s.s_program ≠ 0 ∨
        ((∃ n, gl.vertex = .ok n ∧ n ≠ 0) ∧ (∃ n, gl.fragment = .ok n ∧ n ≠ 0))) := by
  unfold EnsureProgram compileShader linkProgram
  by_cases hp : s.s_program = 0
  · cases gl.vertex <;> cases gl.fragment <;> cases gl.program <;>
      simp only [] <;> split_ifs <;> simp_all <;> omega
  · simp [hp]

theorem fill_program (W : Int) (s : State) (p : Block) (y : Int) :
    (InitFlatPlane.fill W s p y).s_program = s.s_program := rfl

theorem InitFlatPlane_exn (W : Int) (host : Host) (gl : ShaderHost) (s : State)
    (p : Block) (y : Int) :
    (InitFlatPlane W host gl s p y).exn = none ↔
      (s.s_program ≠ 0 ∨
        ((∃ n, gl.vertex = .ok n ∧ n ≠ 0) ∧ (∃ n, gl.fragment = .ok n ∧ n ≠ 0))) := by
  rw [← fill_program W s p y, ← EnsureProgram_exn]
  unfold InitFlatPlane
  cases he : EnsureProgram gl (InitFlatPlane.fill W s p y) with
  | mk s3 e =>
    cases e with
    | none => simp
    | some e => simp

theorem Shutdown_fields (s : State) :
    (Shutdown s).s_plane = [] ∧ (Shutdown s).s_width = s.s_width := by
  constructor
  · unfold Shutdown
    rfl
  · unfold Shutdown
    simp only []
    split_ifs <;> rfl

theorem SetBlockAt_fields (s : State) (x z : Int) (blk : Option Block) :
    (SetBlockAt s x z blk).s_width = s.s_width ∧
    (SetBlockAt s x z blk).s_plane.length = s.s_plane.length := by
  unfold SetBlockAt
  split_ifs
  · exact ⟨rfl, rfl⟩
  · exact ⟨rfl, List.length_set _ _ _⟩

theorem SetAtlas_fields (host : Host) (s : State) (atlas : Option TextureAtlas) :
    (SetAtlas host s atlas).s_width = s.s_width ∧
    (SetAtlas host s atlas).s_plane = s.s_plane := by
  obtain ⟨f1, f2, _⟩ := BuildMesh_fields host { s with s_atlas := atlas }
  unfold SetAtlas
  simp only []
  split_ifs <;> first | exact ⟨rfl, rfl⟩ | exact ⟨f2, f1⟩

theorem reachable_store (W : Int) (s : State) (h : Reachable W s) :
    s.s_width = W ∧ (s.s_plane.length = 0 ∨ s.s_plane.length = (W * W).toNat) := by
  induction h with
  | init => exact ⟨rfl, Or.inl rfl⟩
  | initFlatPlane host gl s p y _ _ =>
    obtain ⟨h1, h2⟩ := InitFlatPlane_store W host gl s p y
    exact ⟨h1, Or.inr h2⟩
  | setBlockAt s x z blk _ ih =>
    obtain ⟨h1, h2⟩ := SetBlockAt_fields s x z blk
    rw [h1, h2]
    exact ih
  | setAtlas host s atlas _ ih =>
    obtain ⟨h1, h2⟩ := SetAtlas_fields host s atlas
    rw [h1, h2]
    exact ih
  | shutdown s _ ih =>
    obtain ⟨h1, h2⟩ := Shutdown_fields s
    rw [h1, h2]
    exact ⟨ih.1, Or.inl rfl⟩

end rendering

/-! ## Claims -/

namespace rendering

/-- C1: in `BuildMesh`, the loop body appends for an occupied cell `(x, z)`
exactly the quads with normals `+Y` (top) and `-Y` (bottom), and the quad with
normal `-Z`, `+Z`, `-X`, `+X` exactly when `GetBlockAt` is empty at
`(x, z-1)`, `(x, z+1)`, `(x-1, z)`, `(x+1, z)`; it appends nothing for an
empty cell (each quad is four vertices carrying the quad's normal).  The
normals of the built mesh are those of the cells in scan order, and the mesh
has `4 * n` vertices and `6 * n` indices where `n` is the sum over the cells of
`2 +` the number of empty direct neighbours for an occupied cell and `0` for an
empty one. -/
theorem C1_face_emission (host : Host) (s : State) :
    (∀ (x z : Int) (m : Mesh),
      (BuildMesh.cell host s (s.s_width.tdiv 2) x z m).verts.map (fun v => v.normal)
        = m.verts.map (fun v => v.normal)
          ++ (specCellNormals s x z).flatMap (fun n => List.replicate 4 n)) ∧
    (BuildMesh.loops host s).verts.map (fun v => v.normal)
      = (List.range s.s_width.toNat).flatMap (fun (z : Nat) =>
          (List.range s.s_width.toNat).flatMap (fun (x : Nat) =>
            (specCellNormals s (x : Int) (z : Int)).flatMap (fun n => List.replicate 4 n))) ∧
    (BuildMesh.loops host s).verts.length
      = 4 * ((List.range s.s_width.toNat).map (fun (z : Nat) =>
          ((List.range s.s_width.toNat).map (fun (x : Nat) =>
            specCellQuads s (x : Int) (z : Int))).sum)).sum ∧
    (BuildMesh.loops host s).inds.length
      = 6 * ((List.range s.s_width.toNat).map (fun (z : Nat) =>
          ((List.range s.s_width.toNat).map (fun (x : Nat) =>
            specCellQuads s (x : Int) (z : Int))).sum)).sum :=
  ⟨fun x z m => cell_normals_append host s _ x z m, loops_normals host s,
    loops_verts_length host s, loops_inds_length host s⟩

/-- C1 at the grid of side 2 whose occupied cells are `(0, 1)` and `(1, 1)`:
each has two of its four direct neighbours empty besides the other cell, so
the mesh has `4 * 10` vertices. -/
theorem C1_face_emission_witness :
    (BuildMesh.loops host0 twoCells).verts.length = 4 * 10 := by
  rw [(C1_face_emission host0 twoCells).2.2.1]
  decide

/-- C2: in a grid where exactly one cell `(x0, z0)` is occupied (every other
in-bounds cell is empty; the cell may lie on the border or in a corner),
`BuildMesh` builds 24 vertices and 36 indices, which are six quads with the
normals `+Y, -Y, -Z, +Z, -X, +X` (top, bottom, north, south, west, east), and
uploads them with a published index count of 36. -/
theorem C2_single_cell (host : Host) (s : State) (x0 z0 : Int) (b : Block)
    (hocc : GetBlockAt s x0 z0 = some b)
    (hrest : ∀ x z : Int, 0 ≤ x → x < s.s_width → 0 ≤ z → z < s.s_width →
      (x ≠ x0 ∨ z ≠ z0) → GetBlockAt s x z = none) :
    (BuildMesh.loops host s).verts.length = 24 ∧
    (BuildMesh.loops host s).inds.length = 36 ∧
    (BuildMesh.loops host s).verts.map (fun v => v.normal)
      = ([⟨0, 1, 0⟩, ⟨0, -1, 0⟩, ⟨0, 0, -1⟩, ⟨0, 0, 1⟩, ⟨-1, 0, 0⟩, ⟨1, 0, 0⟩] :
          List glm.vec3).flatMap (fun n => List.replicate 4 n) ∧
    (BuildMesh host s).vboData = (BuildMesh.loops host s).verts ∧
    (BuildMesh host s).eboData = (BuildMesh.loops host s).inds ∧
    (BuildMesh host s).s_indexCount = 36 := by
  obtain ⟨hx0, hx1, hz0, hz1⟩ := GetBlockAt_some_bounds s x0 z0 b hocc
  have hnone : ∀ x z : Int, (x ≠ x0 ∨ z ≠ z0) → GetBlockAt s x z = none := by
    intro x z hne
    by_cases hin : x < 0 ∨ z < 0 ∨ x ≥ s.s_width ∨ z ≥ s.s_width
    · exact GetBlockAt_outside s x z hin
    · exact hrest x z (by omega) (by omega) (by omega) (by omega) hne
  have hcell : specCellNormals s x0 z0
      = [⟨0, 1, 0⟩, ⟨0, -1, 0⟩, ⟨0, 0, -1⟩, ⟨0, 0, 1⟩, ⟨-1, 0, 0⟩, ⟨1, 0, 0⟩] := by
    simp [specCellNormals, hocc, hnone x0 (z0 - 1) (Or.inr (by omega)),
      hnone x0 (z0 + 1) (Or.inr (by omega)), hnone (x0 - 1) z0 (Or.inl (by omega)),
      hnone (x0 + 1) z0 (Or.inl (by omega))]
  have hnorm : (BuildMesh.loops host s).verts.map (fun v => v.normal)
      = ([⟨0, 1, 0⟩, ⟨0, -1, 0⟩, ⟨0, 0, -1⟩, ⟨0, 0, 1⟩, ⟨-1, 0, 0⟩, ⟨1, 0, 0⟩] :
          List glm.vec3).flatMap (fun n => List.replicate 4 n) := by
    rw [loops_normals, range_flatMap_one s.s_width.toNat z0.toNat _ (by omega)]
    · rw [range_flatMap_one s.s_width.toNat x0.toNat _ (by omega)]
      · rw [Int.toNat_of_nonneg hx0, Int.toNat_of_nonneg hz0, hcell]
      · intro k _ hk
        rw [specCellNormals_empty s _ _ (hnone _ _ (Or.inl (by omega)))]
        rfl
    · intro k _ hk
      apply range_flatMap_nil
      intro j _
      rw [specCellNormals_empty s _ _ (hnone _ _ (Or.inr (by omega)))]
      rfl
  have hlen : (BuildMesh.loops host s).verts.length = 24 := by
    have h := congrArg List.length hnorm
    rw [List.length_map] at h
    rw [h]
    rfl
  obtain ⟨q, hq⟩ := loops_layout host s
  have hinds : (BuildMesh.loops host s).inds.length = 36 := by
    rw [layout_inds_length _ q hq]
    have := hq.1
    omega
  have hup := BuildMesh_upload host s
    (fun h => by rw [h] at hlen; simp at hlen)
    (fun h => by rw [h] at hinds; simp at hinds) (by omega)
  exact ⟨hlen, hinds, hnorm, hup.1, hup.2.1, by rw [hup.2.2, hinds]⟩

/-- C2 at a grid of side 2 whose only occupied cell is the corner `(1, 0)`. -/
theorem C2_single_cell_witness :
    GetBlockAt oneCell 1 0 = some stone ∧
    (BuildMesh.loops host0 oneCell).verts.length = 24 ∧
    (BuildMesh.loops host0 oneCell).inds.length = 36 ∧
    (BuildMesh host0 oneCell).s_indexCount = 36 :=
  have h := C2_single_cell host0 oneCell 1 0 stone rfl (by
    intro x z hx0 hx1 hz0 hz1 hne
    have hw : oneCell.s_width = 2 := rfl
    rw [hw] at hx1 hz1
    interval_cases x <;> interval_cases z <;> first | rfl | omega)
  ⟨rfl, h.1, h.2.1, h.2.2.2.2.2⟩

/-- C3: in a grid where exactly two cells are occupied and they share an edge
(the second is the first one's neighbour at `x + 1` or at `z + 1`),
`BuildMesh` builds 40 vertices and 60 indices, ten quads: each cell has its top
and bottom quad and its three outward side quads, and neither of the two
mutually facing side quads is there; the published index count is 60. -/
theorem C3_adjacent_pair (host : Host) (s : State) (x0 z0 x1 z1 : Int) (b0 b1 : Block)
    (hocc0 : GetBlockAt s x0 z0 = some b0) (hocc1 : GetBlockAt s x1 z1 = some b1)
    (hadj : (x1 = x0 + 1 ∧ z1 = z0) ∨ (x1 = x0 ∧ z1 = z0 + 1))
    (hrest : ∀ x z : Int, 0 ≤ x → x < s.s_width → 0 ≤ z → z < s.s_width →
      (x ≠ x0 ∨ z ≠ z0) → (x ≠ x1 ∨ z ≠ z1) → GetBlockAt s x z = none) :
    (BuildMesh.loops host s).verts.length = 40 ∧
    (BuildMesh.loops host s).inds.length = 60 ∧
    (z1 = z0 → (BuildMesh.loops host s).verts.map (fun v => v.normal)
      = ([⟨0, 1, 0⟩, ⟨0, -1, 0⟩, ⟨0, 0, -1⟩, ⟨0, 0, 1⟩, ⟨-1, 0, 0⟩,
          ⟨0, 1, 0⟩, ⟨0, -1, 0⟩, ⟨0, 0, -1⟩, ⟨0, 0, 1⟩, ⟨1, 0, 0⟩] :
          List glm.vec3).flatMap (fun n => List.replicate 4 n)) ∧
    (x1 = x0 → (BuildMesh.loops host s).verts.map (fun v => v.normal)
      = ([⟨0, 1, 0⟩, ⟨0, -1, 0⟩, ⟨0, 0, -1⟩, ⟨-1, 0, 0⟩, ⟨1, 0, 0⟩,
          ⟨0, 1, 0⟩, ⟨0, -1, 0⟩, ⟨0, 0, 1⟩, ⟨-1, 0, 0⟩, ⟨1, 0, 0⟩] :
          List glm.vec3).flatMap (fun n => List.replicate 4 n)) ∧
    (BuildMesh host s).vboData = (BuildMesh.loops host s).verts ∧
    (BuildMesh host s).eboData = (BuildMesh.loops host s).inds ∧
    (BuildMesh host s).s_indexCount = 60 := by
  obtain ⟨hx0, hx0w, hz0, hz0w⟩ := GetBlockAt_some_bounds s x0 z0 b0 hocc0
  obtain ⟨hx1, hx1w, hz1, hz1w⟩ := GetBlockAt_some_bounds s x1 z1 b1 hocc1
  have hnone : ∀ x z : Int, (x ≠ x0 ∨ z ≠ z0) → (x ≠ x1 ∨ z ≠ z1) →
      GetBlockAt s x z = none := by
    intro x z hne0 hne1
    by_cases hin : x < 0 ∨ z < 0 ∨ x ≥ s.s_width ∨ z ≥ s.s_width
    · exact GetBlockAt_outside s x z hin
    · exact hrest x z (by omega) (by omega) (by omega) (by omega) hne0 hne1
  have hlen : ∀ l : List glm.vec3,
      (BuildMesh.loops host s).verts.map (fun v => v.normal)
        = l.flatMap (fun n => List.replicate 4 n) →
      l.length = 10 → (BuildMesh.loops host s).verts.length = 40 := by
    intro l h hl
    have h2 := congrArg List.length h
    rw [List.length_map, flatMap_length_const _ 4 (fun n => by simp), hl] at h2
    exact h2
  have hfin : (BuildMesh.loops host s).verts.length = 40 →
      (BuildMesh.loops host s).inds.length = 60 ∧
      (BuildMesh host s).vboData = (BuildMesh.loops host s).verts ∧
      (BuildMesh host s).eboData = (BuildMesh.loops host s).inds ∧
      (BuildMesh host s).s_indexCount = 60 := by
    intro hv
    obtain ⟨q, hq⟩ := loops_layout host s
    have hinds : (BuildMesh.loops host s).inds.length = 60 := by
      rw [layout_inds_length _ q hq]
      have := hq.1
      omega
    have hup := BuildMesh_upload host s
      (fun h => by rw [h] at hv; simp at hv)
      (fun h => by rw [h] at hinds; simp at hinds) (by omega)
    exact ⟨hinds, hup.1, hup.2.1, by rw [hup.2.2, hinds]⟩
  rcases hadj with ⟨hx, hz⟩ | ⟨hx, hz⟩
  · -- neighbours along x
    subst hx
    obtain rfl : z0 = z1 := hz.symm
    have hc0 : specCellNormals s x0 z0
        = [⟨0, 1, 0⟩, ⟨0, -1, 0⟩, ⟨0, 0, -1⟩, ⟨0, 0, 1⟩, ⟨-1, 0, 0⟩] := by
      simp [specCellNormals, hocc0, hocc1,
        hnone x0 (z0 - 1) (Or.inr (by omega)) (Or.inr (by omega)),
        hnone x0 (z0 + 1) (Or.inr (by omega)) (Or.inr (by omega)),
        hnone (x0 - 1) z0 (Or.inl (by omega)) (Or.inl (by omega))]
    have hc1 : specCellNormals s (x0 + 1) z0
        = [⟨0, 1, 0⟩, ⟨0, -1, 0⟩, ⟨0, 0, -1⟩, ⟨0, 0, 1⟩, ⟨1, 0, 0⟩] := by
      simp [specCellNormals, hocc0, hocc1,
        hnone (x0 + 1) (z0 - 1) (Or.inr (by omega)) (Or.inr (by omega)),
        hnone (x0 + 1) (z0 + 1) (Or.inr (by omega)) (Or.inr (by omega)),
        hnone (x0 + 1 + 1) z0 (Or.inl (by omega)) (Or.inl (by omega))]
    have hnorm : (BuildMesh.loops host s).verts.map (fun v => v.normal)
        = ([⟨0, 1, 0⟩, ⟨0, -1, 0⟩, ⟨0, 0, -1⟩, ⟨0, 0, 1⟩, ⟨-1, 0, 0⟩,
            ⟨0, 1, 0⟩, ⟨0, -1, 0⟩, ⟨0, 0, -1⟩, ⟨0, 0, 1⟩, ⟨1, 0, 0⟩] :
            List glm.vec3).flatMap (fun n => List.replicate 4 n) := by
      rw [loops_normals, range_flatMap_one s.s_width.toNat z0.toNat _ (by omega)]
      · rw [range_flatMap_two s.s_width.toNat x0.toNat (x0.toNat + 1) _ (by omega) (by omega)]
        · have e1 : ((x0.toNat + 1 : Nat) : Int) = x0 + 1 := by omega
          rw [e1, Int.toNat_of_nonneg hx0, Int.toNat_of_nonneg hz0, hc0, hc1]
          rfl
        · intro k _ hk1 hk2
          rw [specCellNormals_empty s _ _
            (hnone _ _ (Or.inl (by omega)) (Or.inl (by omega)))]
          rfl
      · intro k _ hk
        apply range_flatMap_nil
        intro j _
        rw [specCellNormals_empty s _ _
          (hnone _ _ (Or.inr (by omega)) (Or.inr (by omega)))]
        rfl
    have hv := hlen _ hnorm rfl
    exact ⟨hv, (hfin hv).1, fun _ => hnorm, fun h => by omega, (hfin hv).2⟩
  · -- neighbours along z
    subst hz
    obtain rfl : x0 = x1 := hx.symm
    have hc0 : specCellNormals s x0 z0
        = [⟨0, 1, 0⟩, ⟨0, -1, 0⟩, ⟨0, 0, -1⟩, ⟨-1, 0, 0⟩, ⟨1, 0, 0⟩] := by
      simp [specCellNormals, hocc0, hocc1,
        hnone x0 (z0 - 1) (Or.inr (by omega)) (Or.inr (by omega)),
        hnone (x0 - 1) z0 (Or.inl (by omega)) (Or.inl (by omega)),
        hnone (x0 + 1) z0 (Or.inl (by omega)) (Or.inl (by omega))]
    have hc1 : specCellNormals s x0 (z0 + 1)
        = [⟨0, 1, 0⟩, ⟨0, -1, 0⟩, ⟨0, 0, 1⟩, ⟨-1, 0, 0⟩, ⟨1, 0, 0⟩] := by
      simp [specCellNormals, hocc0, hocc1,
        hnone x0 (z0 + 1 + 1) (Or.inr (by omega)) (Or.inr (by omega)),
        hnone (x0 - 1) (z0 + 1) (Or.inl (by omega)) (Or.inl (by omega)),
        hnone (x0 + 1) (z0 + 1) (Or.inl (by omega)) (Or.inl (by omega))]
    have hnorm : (BuildMesh.loops host s).verts.map (fun v => v.normal)
        = ([⟨0, 1, 0⟩, ⟨0, -1, 0⟩, ⟨0, 0, -1⟩, ⟨-1, 0, 0⟩, ⟨1, 0, 0⟩,
            ⟨0, 1, 0⟩, ⟨0, -1, 0⟩, ⟨0, 0, 1⟩, ⟨-1, 0, 0⟩, ⟨1, 0, 0⟩] :
            List glm.vec3).flatMap (fun n => List.replicate 4 n) := by
      rw [loops_normals,
        range_flatMap_two s.s_width.toNat z0.toNat (z0.toNat + 1) _ (by omega) (by omega)]
      · rw [range_flatMap_one s.s_width.toNat x0.toNat _ (by omega),
          range_flatMap_one s.s_width.toNat x0.toNat _ (by omega)]
        · have e1 : ((z0.toNat + 1 : Nat) : Int) = z0 + 1 := by omega
          rw [e1, Int.toNat_of_nonneg hx0, Int.toNat_of_nonneg hz0, hc0, hc1]
          rfl
        · intro k _ hk
          rw [specCellNormals_empty s _ _
            (hnone _ _ (Or.inl (by omega)) (Or.inl (by omega)))]
          rfl
        · intro k _ hk
          rw [specCellNormals_empty s _ _
            (hnone _ _ (Or.inl (by omega)) (Or.inl (by omega)))]
          rfl
      · intro k _ hk1 hk2
        apply range_flatMap_nil
        intro j _
        rw [specCellNormals_empty s _ _
          (hnone _ _ (Or.inr (by omega)) (Or.inr (by omega)))]
        rfl
    have hv := hlen _ hnorm rfl
    exact ⟨hv, (hfin hv).1, fun h => by omega, fun _ => hnorm, (hfin hv).2⟩

/-- C3 at a grid of side 2 whose occupied cells are `(0, 1)` and `(1, 1)`. -/
theorem C3_adjacent_pair_witness :
    GetBlockAt twoCells 0 1 = some stone ∧ GetBlockAt twoCells 1 1 = some stone ∧
    (BuildMesh.loops host0 twoCells).verts.length = 40 ∧
    (BuildMesh.loops host0 twoCells).inds.length = 60 ∧
    (BuildMesh host0 twoCells).s_indexCount = 60 :=
  have h := C3_adjacent_pair host0 twoCells 0 1 1 1 stone stone rfl rfl
    (Or.inl ⟨rfl, rfl⟩) (by
      intro x z hx0 hx1 hz0 hz1 hne0 hne1
      have hw : twoCells.s_width = 2 := rfl
      rw [hw] at hx1 hz1
      interval_cases x <;> interval_cases z <;> first | rfl | omega)
  ⟨rfl, rfl, h.1, h.2.1, h.2.2.2.2.2.2⟩

/-- C4: for a grid with no occupied cell, `BuildMesh` builds no vertex and
no index, returns through the empty-mesh exit with the published index count
`0`, writes nothing to `std::cerr`, and `RenderVisible` then issues no draw
call. -/
theorem C4_empty_grid (host : Host) (s : State)
    (hempty : ∀ x z : Int, 0 ≤ x → x < s.s_width → 0 ≤ z → z < s.s_width →
      GetBlockAt s x z = none) :
    (BuildMesh.loops host s).verts = [] ∧
    (BuildMesh.loops host s).inds = [] ∧
    (BuildMesh host s).s_indexCount = 0 ∧
    (BuildMesh host s).cerr = s.cerr ∧
    RenderVisible (BuildMesh host s) = none := by
  have hv : (BuildMesh.loops host s).verts = [] := by
    rw [loops_verts]
    apply range_flatMap_nil
    intro z hz
    apply range_flatMap_nil
    intro x hx
    have h := hempty x z (by omega) (by omega) (by omega) (by omega)
    simp [BuildMesh.cell, h, Mesh.empty]
  have hi : (BuildMesh.loops host s).inds = [] := by
    obtain ⟨q, hq⟩ := loops_layout host s
    have h1 := hq.1
    rw [hv] at h1
    have hq0 : q = 0 := by simp at h1; omega
    rw [hq.2, hq0]
    rfl
  have hcount : (BuildMesh host s).s_indexCount = 0 := by
    rw [BuildMesh_indexCount, if_pos (Or.inl hv)]
  have hcerr : (BuildMesh host s).cerr = s.cerr := by
    unfold BuildMesh
    simp only [loops_free, hv, List.isEmpty_nil, true_or, if_true]
    unfold BuildMesh.free
    simp only []
    split_ifs <;> rfl
  refine ⟨hv, hi, hcount, hcerr, ?_⟩
  unfold RenderVisible
  rw [if_pos (Or.inl hcount)]

/-- C4 at a grid of side 2 with no occupied cell. -/
theorem C4_empty_grid_witness :
    (BuildMesh.loops host0 noCells).verts = [] ∧
    (BuildMesh host0 noCells).s_indexCount = 0 ∧
    RenderVisible (BuildMesh host0 noCells) = none :=
  have h := C4_empty_grid host0 noCells (by
    intro x z hx0 hx1 hz0 hz1
    have hw : noCells.s_width = 2 := rfl
    rw [hw] at hx1 hz1
    interval_cases x <;> interval_cases z <;> rfl)
  ⟨h.1, h.2.2.1, h.2.2.2.2⟩

/-- C5 (amended): the mesh `BuildMesh` builds has, for some `q`, exactly
`4 * q` vertices and `6 * q` indices; for every `k < q` the `k`-th group of six
indices is `b, b+1, b+2, b+2, b+3, b` with `b = 4 * k mod 2 ^ 32`, the base
being a 32-bit unsigned value; `b = 4 * k` for every quad when the mesh has at
most `2 ^ 32` vertices, in particular when the index count is within the
ceiling of 100,000,000; and every index refers to an existing vertex. -/
theorem C5_quad_layout (host : Host) (s : State) :
    ∃ q : Nat,
      (BuildMesh.loops host s).verts.length = 4 * q ∧
      (BuildMesh.loops host s).inds.length = 6 * q ∧
      (∀ k : Nat, k < q →
        ((BuildMesh.loops host s).inds.drop (6 * k)).take 6
          = [4 * k % 2 ^ 32, 4 * k % 2 ^ 32 + 1, 4 * k % 2 ^ 32 + 2,
             4 * k % 2 ^ 32 + 2, 4 * k % 2 ^ 32 + 3, 4 * k % 2 ^ 32]) ∧
      ((4 * q ≤ 2 ^ 32 ∨ (BuildMesh.loops host s).inds.length ≤ 100000000) →
        ∀ k : Nat, k < q →
          ((BuildMesh.loops host s).inds.drop (6 * k)).take 6
            = [4 * k, 4 * k + 1, 4 * k + 2, 4 * k + 2, 4 * k + 3, 4 * k]) ∧
      (∀ i ∈ (BuildMesh.loops host s).inds, i < (BuildMesh.loops host s).verts.length) := by
  obtain ⟨q, hq⟩ := loops_layout host s
  have hinds := layout_inds_length _ q hq
  refine ⟨q, hq.1, hinds, ?_, ?_, ?_⟩
  · intro k hk
    rw [layout_group _ q hq k hk, quadIndices_eq]
  · intro hsmall k hk
    have h4 : 4 * k % 2 ^ 32 = 4 * k := by
      apply Nat.mod_eq_of_lt
      norm_num at hsmall ⊢
      omega
    rw [layout_group _ q hq k hk, quadIndices_eq, h4]
  · intro i hi
    exact layout_index_lt _ q hq i hi

/-- C5 at the grid of side 2 whose only occupied cell is `(1, 0)`: 24 vertices,
36 indices, and the second group of indices is `4, 5, 6, 6, 7, 4`. -/
theorem C5_quad_layout_witness :
    (BuildMesh.loops host0 oneCell).verts.length = 4 * 6 ∧
    (BuildMesh.loops host0 oneCell).inds.length = 6 * 6 ∧
    ((BuildMesh.loops host0 oneCell).inds.drop (6 * 1)).take 6 = [4, 5, 6, 6, 7, 4] := by
  obtain ⟨q, hv, hi, _, hg, _⟩ := C5_quad_layout host0 oneCell
  have hq : (BuildMesh.loops host0 oneCell).verts.length = 24 := by decide
  have hq6 : q = 6 := by omega
  subst hq6
  exact ⟨hv, hi, hg (Or.inl (by norm_num)) 1 (by omega)⟩

/-- C5 as stated fails on the grid of side 23171 with every cell occupied: it
has more than `2 ^ 30` quads, and the group of indices of quad `2 ^ 30` starts
at `0`, not at `2 ^ 32`. -/
theorem C5_counterexample :
    ¬ (∃ q : Nat,
      (BuildMesh.loops host0 (fullGrid 23171 stone)).verts.length = 4 * q ∧
      (BuildMesh.loops host0 (fullGrid 23171 stone)).inds.length = 6 * q ∧
      (∀ k : Nat, k < q →
        ((BuildMesh.loops host0 (fullGrid 23171 stone)).inds.drop (6 * k)).take 6
          = [4 * k, 4 * k + 1, 4 * k + 2, 4 * k + 2, 4 * k + 3, 4 * k]) ∧
      (∀ i ∈ (BuildMesh.loops host0 (fullGrid 23171 stone)).inds,
        i < (BuildMesh.loops host0 (fullGrid 23171 stone)).verts.length)) := by
  rintro ⟨q, hv, _, hg, _⟩
  have hge := fullGrid_verts_ge host0 23171 stone
  obtain ⟨q2, hq2⟩ := loops_layout host0 (fullGrid 23171 stone)
  have hqq : q2 = q := by
    have := hq2.1
    omega
  subst hqq
  have hk : 1073741824 < q2 := by omega
  have h := hg 1073741824 hk
  rw [layout_group _ q2 hq2 _ hk] at h
  norm_num [quadIndices] at h

end rendering

namespace TextureAtlas

/-- C6: for a valid atlas and a tile index `i` with `0 ≤ i < cols * rows`,
`GetTileUV i` is, in exact arithmetic with `col = i % cols` and
`row = i / cols`: `u0 = col*tileW/width`, `u1 = (col+1)*tileW/width`,
`v0 = 1 - (row+1)*tileH/height`, `v1 = 1 - row*tileH/height`. -/
theorem C6_tile_uv (a : TextureAtlas) (i : Int) (hvalid : a.IsValid = true)
    (hi0 : 0 ≤ i) (hi1 : i < a.cols_ * a.rows_) :
    a.GetTileUV i =
      { u0 := ((i % a.cols_ * a.tileW_ : Int) : ℚ) / (a.width_ : ℚ)
        u1 := (((i % a.cols_ + 1) * a.tileW_ : Int) : ℚ) / (a.width_ : ℚ)
        v0 := 1 - (((i / a.cols_ + 1) * a.tileH_ : Int) : ℚ) / (a.height_ : ℚ)
        v1 := 1 - ((i / a.cols_ * a.tileH_ : Int) : ℚ) / (a.height_ : ℚ) } := by
  obtain ⟨_, hc, hr⟩ := IsValid_pos a hvalid
  have hrow : i / a.cols_ < a.rows_ :=
    Int.ediv_lt_of_lt_mul hc (by rw [mul_comm]; exact hi1)
  rw [GetTileUV_valid a hvalid, max_eq_left hi0, min_eq_left (by omega)]
  simp only [tileRect, mul_one_div]

/-- C6 at the 64x64 atlas with 16x16 tiles: tile 0 has `u0 = 0`, `u1 = 1/4`,
`v0 = 3/4`, `v1 = 1`. -/
theorem C6_tile_uv_witness :
    atlas64.IsValid = true ∧
    atlas64.GetTileUV 0 = { u0 := 0, u1 := 1 / 4, v0 := 3 / 4, v1 := 1 } := by
  refine ⟨by decide, ?_⟩
  rw [C6_tile_uv atlas64 0 (by decide) (by decide) (by decide)]
  norm_num [atlas64]

/-- C7: for an atlas left valid by a successful `LoadFromFile` and every
integer tile index `i`, in range or not, `GetTileUV i` satisfies
`0 ≤ u0 < u1 ≤ 1` and `0 ≤ v0 < v1 ≤ 1` in exact arithmetic. -/
theorem C7_uv_in_unit_square (stbi_load : String → Bool → Option (Int × Int)) (gen : Nat)
    (a0 a : TextureAtlas) (path : String) (tw th : Int) (flip : Bool) (i : Int)
    (hload : LoadFromFile stbi_load gen a0 path tw th flip = (true, a))
    (hvalid : a.IsValid = true) :
    0 ≤ (a.GetTileUV i).u0 ∧ (a.GetTileUV i).u0 < (a.GetTileUV i).u1 ∧
    (a.GetTileUV i).u1 ≤ 1 ∧
    0 ≤ (a.GetTileUV i).v0 ∧ (a.GetTileUV i).v0 < (a.GetTileUV i).v1 ∧
    (a.GetTileUV i).v1 ≤ 1 := by
  obtain ⟨w, h, _, htw, hth, hcw, hrh, ha⟩ :=
    LoadFromFile_true stbi_load gen a0 a path tw th flip hload
  obtain ⟨hw, hcm⟩ := tdiv_pos_facts w tw htw hcw
  obtain ⟨hh, hrm⟩ := tdiv_pos_facts h th hth hrh
  have hcols : a.cols_ = w.tdiv tw := by rw [ha]
  have hrows : a.rows_ = h.tdiv th := by rw [ha]
  have hc0 : 0 ≤ (max i 0) % a.cols_ := Int.emod_nonneg _ (by omega)
  have hc1 : (max i 0) % a.cols_ < a.cols_ := Int.emod_lt_of_pos _ (by omega)
  have hr0 : 0 ≤ min ((max i 0) / a.cols_) (a.rows_ - 1) :=
    le_min (Int.ediv_nonneg (le_max_right _ _) (by omega)) (by omega)
  have hr1 : min ((max i 0) / a.cols_) (a.rows_ - 1) < a.rows_ := by
    have := min_le_right ((max i 0) / a.cols_) (a.rows_ - 1)
    omega
  rw [GetTileUV_valid a hvalid]
  generalize (max i 0) % a.cols_ = col at hc0 hc1
  generalize min ((max i 0) / a.cols_) (a.rows_ - 1) = row at hr0 hr1
  have hwq : (0 : ℚ) < (w : ℚ) := by exact_mod_cast hw
  have hhq : (0 : ℚ) < (h : ℚ) := by exact_mod_cast hh
  have e1 : a.width_ = w := by rw [ha]
  have e2 : a.height_ = h := by rw [ha]
  have e3 : a.tileW_ = tw := by rw [ha]
  have e4 : a.tileH_ = th := by rw [ha]
  have hu0 : (0 : Int) ≤ col * tw := Int.mul_nonneg hc0 (by omega)
  have hu1 : (col + 1) * tw ≤ w := by
    have : (col + 1) * tw ≤ w.tdiv tw * tw :=
      Int.mul_le_mul_of_nonneg_right (by omega) (by omega)
    omega
  have hu01 : col * tw < (col + 1) * tw := by
    have : (col + 1) * tw = col * tw + tw := by ring
    omega
  have hv0 : (0 : Int) ≤ row * th := Int.mul_nonneg hr0 (by omega)
  have hv1 : (row + 1) * th ≤ h := by
    have : (row + 1) * th ≤ h.tdiv th * th :=
      Int.mul_le_mul_of_nonneg_right (by omega) (by omega)
    omega
  have hv01 : row * th < (row + 1) * th := by
    have : (row + 1) * th = row * th + th := by ring
    omega
  simp only [tileRect, mul_one_div, e1, e2, e3, e4]
  have qu0 : (0 : ℚ) ≤ ((col * tw : Int) : ℚ) := by exact_mod_cast hu0
  have qu1 : (((col + 1) * tw : Int) : ℚ) ≤ (w : ℚ) := by exact_mod_cast hu1
  have qu01 : ((col * tw : Int) : ℚ) < (((col + 1) * tw : Int) : ℚ) := by exact_mod_cast hu01
  have qv0 : (0 : ℚ) ≤ ((row * th : Int) : ℚ) := by exact_mod_cast hv0
  have qv1 : (((row + 1) * th : Int) : ℚ) ≤ (h : ℚ) := by exact_mod_cast hv1
  have qv01 : ((row * th : Int) : ℚ) < (((row + 1) * th : Int) : ℚ) := by exact_mod_cast hv01
  refine ⟨div_nonneg qu0 hwq.le, div_lt_div_of_pos_right qu01 hwq,
    (div_le_one hwq).mpr qu1, ?_, ?_, ?_⟩
  · have := (div_le_one hhq).mpr qv1
    linarith
  · have := div_lt_div_of_pos_right qv01 hhq
    linarith
  · have := div_nonneg qv0 hhq.le
    linarith

/-- C7 at the atlas a successful load of a 64x64 image with 16x16 tiles
leaves, for the out-of-range tile index `-1`. -/
theorem C7_uv_in_unit_square_witness :
    LoadFromFile decode64 1 TextureAtlas.new "atlas.png" 16 16 true = (true, atlas64) ∧
    0 ≤ (atlas64.GetTileUV (-1)).u0 ∧
    (atlas64.GetTileUV (-1)).u0 < (atlas64.GetTileUV (-1)).u1 ∧
    (atlas64.GetTileUV (-1)).u1 ≤ 1 ∧
    0 ≤ (atlas64.GetTileUV (-1)).v0 ∧
    (atlas64.GetTileUV (-1)).v0 < (atlas64.GetTileUV (-1)).v1 ∧
    (atlas64.GetTileUV (-1)).v1 ≤ 1 :=
  ⟨by decide, C7_uv_in_unit_square decode64 1 TextureAtlas.new atlas64 "atlas.png" 16 16 true
    (-1) (by decide) (by decide)⟩

/-- C8 (amended): for a valid atlas, `GetTileUV i` equals `GetTileUV 0` when
`i < 0`; when `i ≥ cols * rows` it equals `GetTileUV` of the tile of the last
row in column `i % cols`, whose index is `(rows - 1) * cols + i % cols`, and
so it equals `GetTileUV (cols * rows - 1)` when `i % cols = cols - 1`. -/
theorem C8_out_of_range (a : TextureAtlas) (i : Int) (hvalid : a.IsValid = true) :
    (i < 0 → a.GetTileUV i = a.GetTileUV 0) ∧
    (a.cols_ * a.rows_ ≤ i →
      a.GetTileUV i = a.GetTileUV ((a.rows_ - 1) * a.cols_ + i % a.cols_)) ∧
    (a.cols_ * a.rows_ ≤ i → i % a.cols_ = a.cols_ - 1 →
      a.GetTileUV i = a.GetTileUV (a.cols_ * a.rows_ - 1)) := by
  obtain ⟨_, hc, hr⟩ := IsValid_pos a hvalid
  have hlast : ∀ j : Int, a.cols_ * a.rows_ ≤ j →
      a.GetTileUV j = a.GetTileUV ((a.rows_ - 1) * a.cols_ + j % a.cols_) := by
    intro j hj
    have hpos : 0 < a.cols_ * a.rows_ := Int.mul_pos hc hr
    have hr0 : 0 ≤ j % a.cols_ := Int.emod_nonneg _ (by omega)
    have hr1 : j % a.cols_ < a.cols_ := Int.emod_lt_of_pos _ hc
    have hk0 : 0 ≤ (a.rows_ - 1) * a.cols_ := Int.mul_nonneg (by omega) (by omega)
    have hrow : a.rows_ ≤ j / a.cols_ :=
      Int.le_ediv_of_mul_le hc (by rw [mul_comm]; exact hj)
    have e : (a.rows_ - 1) * a.cols_ + j % a.cols_
        = j % a.cols_ + a.cols_ * (a.rows_ - 1) := by ring
    have hmod : ((a.rows_ - 1) * a.cols_ + j % a.cols_) % a.cols_ = j % a.cols_ := by
      rw [e, Int.add_mul_emod_self_left, Int.emod_emod_of_dvd _ (dvd_refl _)]
    have hdiv : ((a.rows_ - 1) * a.cols_ + j % a.cols_) / a.cols_ = a.rows_ - 1 := by
      rw [e, Int.add_mul_ediv_left _ _ (by omega), Int.ediv_eq_zero_of_lt hr0 hr1]
      ring
    rw [GetTileUV_valid a hvalid j, GetTileUV_valid a hvalid _, max_eq_left (by omega),
      max_eq_left (by omega), hmod, hdiv, min_eq_right (by omega), min_self]
  refine ⟨?_, hlast i, ?_⟩
  · intro hneg
    rw [GetTileUV_valid a hvalid i, GetTileUV_valid a hvalid 0, max_eq_right (by omega),
      max_self]
  · intro hi hmod
    rw [hlast i hi, hmod]
    congr 1
    ring

/-- C8 (amended) at the 64x64 atlas with 16x16 tiles: tile index
`cols * rows + 5 = 21` gives the rectangle of tile 13, the tile of the last row
in column 1. -/
theorem C8_out_of_range_witness :
    atlas64.IsValid = true ∧ atlas64.GetTileUV 21 = atlas64.GetTileUV 13 :=
  ⟨by decide, (C8_out_of_range atlas64 21 (by decide)).2.1 (by decide)⟩

/-- C8 as stated fails at the 64x64 atlas with 16x16 tiles and the tile index
`cols * rows + 5 = 21`: the result is not the rectangle of the last tile
`cols * rows - 1 = 15`. -/
theorem C8_counterexample :
    atlas64.IsValid = true ∧ atlas64.cols_ * atlas64.rows_ ≤ 21 ∧
    atlas64.GetTileUV (atlas64.cols_ * atlas64.rows_ + 5)
      ≠ atlas64.GetTileUV (atlas64.cols_ * atlas64.rows_ - 1) := by
  refine ⟨by decide, by decide, ?_⟩
  norm_num [GetTileUV, IsValid, atlas64, Int.tmod, Int.tdiv]

/-- C9: `LoadFromFile` returns false exactly when the decoder fails, or
`tileWidth ≤ 0`, or `tileHeight ≤ 0`, or the decoded width divided by
`tileWidth` is `≤ 0`, or the decoded height divided by `tileHeight` is `≤ 0`
(truncating division); when it returns true, `cols_` and `rows_` are these
two quotients. -/
theorem C9_load_result (stbi_load : String → Bool → Option (Int × Int)) (gen : Nat)
    (a : TextureAtlas) (path : String) (tw th : Int) (flip : Bool) :
    ((LoadFromFile stbi_load gen a path tw th flip).1 = false ↔
      (stbi_load path flip = none ∨ tw ≤ 0 ∨ th ≤ 0 ∨
        ∃ w h, stbi_load path flip = some (w, h) ∧ (w.tdiv tw ≤ 0 ∨ h.tdiv th ≤ 0))) ∧
    ((LoadFromFile stbi_load gen a path tw th flip).1 = true →
      ∃ w h, stbi_load path flip = some (w, h) ∧
        (LoadFromFile stbi_load gen a path tw th flip).2.cols_ = w.tdiv tw ∧
        (LoadFromFile stbi_load gen a path tw th flip).2.rows_ = h.tdiv th) := by
  unfold LoadFromFile
  simp only []
  cases hd : stbi_load path flip with
  | none => simp
  | some wh =>
    obtain ⟨w, h⟩ := wh
    simp only []
    by_cases h1 : tw ≤ 0 ∨ th ≤ 0
    · rw [if_pos h1]
      simp only [true_iff, false_implies, and_true, Bool.false_eq_true]
      rcases h1 with h1 | h1
      · exact Or.inr (Or.inl h1)
      · exact Or.inr (Or.inr (Or.inl h1))
    · rw [if_neg h1]
      by_cases h2 : w.tdiv tw ≤ 0 ∨ h.tdiv th ≤ 0
      · rw [if_pos h2]
        simp only [true_iff, false_implies, and_true, Bool.false_eq_true]
        exact Or.inr (Or.inr (Or.inr ⟨w, h, rfl, h2⟩))
      · rw [if_neg h2]
        refine ⟨?_, fun _ => ⟨w, h, rfl, rfl, rfl⟩⟩
        simp only [Bool.true_eq_false, false_iff]
        rintro (h3 | h3 | h3 | ⟨w2, h5, h3, h4⟩)
        · exact Option.noConfusion h3
        · exact h1 (Or.inl h3)
        · exact h1 (Or.inr h3)
        · simp only [Option.some.injEq, Prod.mk.injEq] at h3
          rw [← h3.1, ← h3.2] at h4
          exact h2 h4

/-- C9 at a decoder that fails: the load returns false. -/
theorem C9_load_result_witness :
    (LoadFromFile decodeFail 1 TextureAtlas.new "missing.png" 16 16 true).1 = false :=
  (C9_load_result decodeFail 1 TextureAtlas.new "missing.png" 16 16 true).1.mpr (Or.inl rfl)

/-- C10 (amended): whenever `LoadFromFile` returns false the texture handle
is `0`, so the atlas is invalid.  On a decode failure the stored width,
height, tile width, tile height, column count and row count are the same as
before the call.  On a non-positive tile size the tile width, tile height,
column count and row count are the same as before, and the width and height
are those of the decoded image.  On an atlas smaller than one tile all six
hold the values of the failed attempt. -/
theorem C10_failed_load_state (stbi_load : String → Bool → Option (Int × Int)) (gen : Nat)
    (a : TextureAtlas) (path : String) (tw th : Int) (flip : Bool)
    (hfail : (LoadFromFile stbi_load gen a path tw th flip).1 = false) :
    (LoadFromFile stbi_load gen a path tw th flip).2.texId_ = 0 ∧
    (LoadFromFile stbi_load gen a path tw th flip).2.IsValid = false ∧
    (stbi_load path flip = none →
      (LoadFromFile stbi_load gen a path tw th flip).2.width_ = a.width_ ∧
      (LoadFromFile stbi_load gen a path tw th flip).2.height_ = a.height_ ∧
      (LoadFromFile stbi_load gen a path tw th flip).2.tileW_ = a.tileW_ ∧
      (LoadFromFile stbi_load gen a path tw th flip).2.tileH_ = a.tileH_ ∧
      (LoadFromFile stbi_load gen a path tw th flip).2.cols_ = a.cols_ ∧
      (LoadFromFile stbi_load gen a path tw th flip).2.rows_ = a.rows_) ∧
    (∀ w h, stbi_load path flip = some (w, h) → (tw ≤ 0 ∨ th ≤ 0) →
      (LoadFromFile stbi_load gen a path tw th flip).2.width_ = w ∧
      (LoadFromFile stbi_load gen a path tw th flip).2.height_ = h ∧
      (LoadFromFile stbi_load gen a path tw th flip).2.tileW_ = a.tileW_ ∧
      (LoadFromFile stbi_load gen a path tw th flip).2.tileH_ = a.tileH_ ∧
      (LoadFromFile stbi_load gen a path tw th flip).2.cols_ = a.cols_ ∧
      (LoadFromFile stbi_load gen a path tw th flip).2.rows_ = a.rows_) ∧
    (∀ w h, stbi_load path flip = some (w, h) → 0 < tw → 0 < th →
      (LoadFromFile stbi_load gen a path tw th flip).2.width_ = w ∧
      (LoadFromFile stbi_load gen a path tw th flip).2.height_ = h ∧
      (LoadFromFile stbi_load gen a path tw th flip).2.tileW_ = tw ∧
      (LoadFromFile stbi_load gen a path tw th flip).2.tileH_ = th ∧
      (LoadFromFile stbi_load gen a path tw th flip).2.cols_ = w.tdiv tw ∧
      (LoadFromFile stbi_load gen a path tw th flip).2.rows_ = h.tdiv th) := by
  have htex : (LoadFromFile stbi_load gen a path tw th flip).2.texId_ = 0 := by
    revert hfail
    unfold LoadFromFile
    simp only []
    cases hd : stbi_load path flip with
    | none =>
      intro _
      by_cases h0 : a.texId_ = 0 <;> simp [h0]
    | some wh =>
      obtain ⟨w, h⟩ := wh
      simp only []
      intro hfail
      by_cases h0 : a.texId_ = 0 <;> by_cases h1 : tw ≤ 0 ∨ th ≤ 0 <;>
        by_cases h2 : w.tdiv tw ≤ 0 ∨ h.tdiv th ≤ 0 <;>
        simp [h0, h1, h2] at hfail ⊢
  refine ⟨htex, ?_, ?_, ?_, ?_⟩
  · simp [IsValid, htex]
  · intro hd
    unfold LoadFromFile
    simp only [hd]
    by_cases h0 : a.texId_ = 0 <;> simp [h0]
  · intro w h hd ht
    unfold LoadFromFile
    simp only [hd, if_pos ht]
    by_cases h0 : a.texId_ = 0 <;> simp [h0]
  · intro w h hd h1 h2
    have ht : ¬ (tw ≤ 0 ∨ th ≤ 0) := by omega
    revert hfail
    unfold LoadFromFile
    simp only [hd, if_neg ht]
    intro hfail
    by_cases h0 : a.texId_ = 0 <;> by_cases h3 : w.tdiv tw ≤ 0 ∨ h.tdiv th ≤ 0 <;>
      simp [h0, h3] at hfail ⊢

/-- C10 (amended) at a failed load of an 8x8 image with 16x16 tiles into the
valid 64x64 atlas: the handle is `0` and the width is that of the new image. -/
theorem C10_failed_load_state_witness :
    (LoadFromFile decode8 1 atlas64 "small.png" 16 16 true).1 = false ∧
    (LoadFromFile decode8 1 atlas64 "small.png" 16 16 true).2.texId_ = 0 ∧
    (LoadFromFile decode8 1 atlas64 "small.png" 16 16 true).2.width_ = 8 :=
  have h := C10_failed_load_state decode8 1 atlas64 "small.png" 16 16 true (by decide)
  ⟨by decide, h.1, (h.2.2.2.2 8 8 rfl (by decide) (by decide)).1⟩

/-- C10 as stated fails at a load of an 8x8 image with 16x16 tiles into the
valid 64x64 atlas: the call returns false, and the stored width and column
count are no longer those from before the call. -/
theorem C10_counterexample :
    (LoadFromFile decode8 1 atlas64 "small.png" 16 16 true).1 = false ∧
    (LoadFromFile decode8 1 atlas64 "small.png" 16 16 true).2.width_ ≠ atlas64.width_ ∧
    (LoadFromFile decode8 1 atlas64 "small.png" 16 16 true).2.cols_ ≠ atlas64.cols_ := by
  decide

end TextureAtlas

namespace TextureAtlas

/-- C11: after a `LoadFromFile` call that returns false, on any atlas (fresh
or valid before the call), `IsValid` is false and `GetTileUV` returns
`u0 = 0, v0 = 0, u1 = 1, v1 = 1` for every tile index; the same holds on a
never-loaded atlas. -/
theorem C11_failed_load_invalid (stbi_load : String → Bool → Option (Int × Int)) (gen : Nat)
    (a : TextureAtlas) (path : String) (tw th : Int) (flip : Bool) (i : Int)
    (hfail : (LoadFromFile stbi_load gen a path tw th flip).1 = false) :
    (LoadFromFile stbi_load gen a path tw th flip).2.IsValid = false ∧
    (LoadFromFile stbi_load gen a path tw th flip).2.GetTileUV i
      = { u0 := 0, v0 := 0, u1 := 1, v1 := 1 } ∧
    TextureAtlas.new.IsValid = false ∧
    TextureAtlas.new.GetTileUV i = { u0 := 0, v0 := 0, u1 := 1, v1 := 1 } := by
  have hv := IsValid_of_texId_zero _
    (LoadFromFile_false_texId stbi_load gen a path tw th flip hfail)
  have hn : TextureAtlas.new.IsValid = false := IsValid_of_texId_zero _ rfl
  exact ⟨hv, GetTileUV_invalid _ hv i, hn, GetTileUV_invalid _ hn i⟩

/-- C11 at a failed decode into the valid 64x64 atlas and at one into a fresh
atlas: both are invalid afterwards and give the unit rectangle for tile 7. -/
theorem C11_failed_load_invalid_witness :
    (LoadFromFile decodeFail 1 atlas64 "missing.png" 16 16 true).1 = false ∧
    (LoadFromFile decodeFail 1 atlas64 "missing.png" 16 16 true).2.IsValid = false ∧
    (LoadFromFile decodeFail 1 atlas64 "missing.png" 16 16 true).2.GetTileUV 7
      = { u0 := 0, v0 := 0, u1 := 1, v1 := 1 } ∧
    (LoadFromFile decodeFail 1 TextureAtlas.new "missing.png" 16 16 true).2.IsValid = false :=
  have h := C11_failed_load_invalid decodeFail 1 atlas64 "missing.png" 16 16 true 7 (by decide)
  have h2 := C11_failed_load_invalid decodeFail 1 TextureAtlas.new "missing.png" 16 16 true 7
    (by decide)
  ⟨by decide, h.1, h.2.1, h2.1⟩

end TextureAtlas

namespace rendering

/-- C12: with a valid atlas set, the quad `BuildMesh` emits for the face `f`
of a cell holding the block `b` carries on its corners 0, 1, 2, 3 the UVs
`(u0,v0)`, `(u1,v0)`, `(u1,v1)`, `(u0,v1)` of
`GetTileUV (b.GetTileForFace f)`, the tile of its own face: the loop body
appends, for the cell `(x, z)`, vertices whose normals and UVs are those of
`specCellUVs`, and the normals and UVs of the built mesh are those of the cells
in scan order. -/
theorem C12_face_uvs (host : Host) (s : State) (atlas : TextureAtlas)
    (hatlas : s.s_atlas = some atlas) (hvalid : atlas.IsValid = true) :
    (∀ (x z : Int) (m : Mesh),
      (BuildMesh.cell host s (s.s_width.tdiv 2) x z m).verts.map (fun v => (v.normal, v.uv))
        = m.verts.map (fun v => (v.normal, v.uv)) ++ specCellUVs s atlas x z) ∧
    (BuildMesh.loops host s).verts.map (fun v => (v.normal, v.uv))
      = (List.range s.s_width.toNat).flatMap (fun (z : Nat) =>
          (List.range s.s_width.toNat).flatMap (fun (x : Nat) =>
            specCellUVs s atlas (x : Int) (z : Int))) := by
  constructor
  · intro x z m
    rw [cell_verts, List.map_append, cell_uvs_atlas host s atlas _ x z hatlas hvalid]
  · rw [loops_verts, List.map_flatMap]
    simp only [List.map_flatMap, cell_uvs_atlas host s atlas _ _ _ hatlas hvalid]

/-- C12 at the grid of side 1 holding the block `painted` (tiles 1 to 6 on the
faces 0 to 5) with the 64x64 atlas: the four vertices of the top quad carry
the normal `+Y` and the UVs of tile 1, and those of the east quad carry `+X`
and the UVs of tile 6. -/
theorem C12_face_uvs_witness :
    ((BuildMesh.loops host0 (paintedCell (some TextureAtlas.atlas64))).verts.map
        (fun v => (v.normal, v.uv))).take 4
      = [(⟨0, 1, 0⟩, ⟨1 / 4, 3 / 4⟩), (⟨0, 1, 0⟩, ⟨1 / 2, 3 / 4⟩),
         (⟨0, 1, 0⟩, ⟨1 / 2, 1⟩), (⟨0, 1, 0⟩, ⟨1 / 4, 1⟩)] ∧
    ((BuildMesh.loops host0 (paintedCell (some TextureAtlas.atlas64))).verts.map
        (fun v => (v.normal, v.uv))).drop 20
      = [(⟨1, 0, 0⟩, ⟨1 / 2, 1 / 2⟩), (⟨1, 0, 0⟩, ⟨3 / 4, 1 / 2⟩),
         (⟨1, 0, 0⟩, ⟨3 / 4, 3 / 4⟩), (⟨1, 0, 0⟩, ⟨1 / 2, 3 / 4⟩)] := by
  have h := (C12_face_uvs host0 (paintedCell (some TextureAtlas.atlas64)) TextureAtlas.atlas64
    rfl (by decide)).2
  have hw : (paintedCell (some TextureAtlas.atlas64)).s_width.toNat = 1 := rfl
  rw [hw] at h
  rw [h]
  norm_num [List.range_succ, specCellUVs, specCellFaces, specQuadUVs, faceNormal, GetBlockAt, idx,
    paintedCell, painted, Block.GetTileForFace, TextureAtlas.GetTileUV, TextureAtlas.IsValid,
    TextureAtlas.atlas64, FACE_TOP, FACE_BOTTOM, FACE_NORTH, FACE_SOUTH, FACE_WEST, FACE_EAST,
    Int.tmod, Int.tdiv]

/-- C13: when no atlas is set, or the atlas set is invalid, every quad of the
mesh `BuildMesh` builds carries the UVs `(0,0)`, `(1,0)`, `(1,1)`, `(0,1)` on
its corners 0, 1, 2, 3, for every grid and every block. -/
theorem C13_fallback_uvs (host : Host) (s : State)
    (hno : s.s_atlas = none ∨ ∃ a, s.s_atlas = some a ∧ a.IsValid = false) :
    ∀ k : Nat, 4 * k < (BuildMesh.loops host s).verts.length →
      (quadAt (BuildMesh.loops host s).verts k).map (fun v => v.uv)
        = [⟨0, 0⟩, ⟨1, 0⟩, ⟨1, 1⟩, ⟨0, 1⟩] := by
  intro k hk
  obtain ⟨q, hq⟩ := loops_uvs_unit host s hno
  have hlen : (BuildMesh.loops host s).verts.length = 4 * q := by
    have h := congrArg List.length hq
    rw [List.length_map, flatMap_length_const (fun _ => unitUVs) 4 (fun _ => rfl),
      List.length_range] at h
    exact h
  unfold quadAt
  rw [List.map_take, List.map_drop, hq]
  exact range_flatMap_group (fun _ => unitUVs) 4 (fun _ => rfl) q k (by omega)

/-- C13 at the grid of side 1 holding the block `painted`, once with no atlas
and once with a never-loaded atlas: the north quad, quad 2, has the unit
rectangle. -/
theorem C13_fallback_uvs_witness :
    (quadAt (BuildMesh.loops host0 (paintedCell none)).verts 2).map (fun v => v.uv)
      = [⟨0, 0⟩, ⟨1, 0⟩, ⟨1, 1⟩, ⟨0, 1⟩] ∧
    (quadAt (BuildMesh.loops host0 (paintedCell (some TextureAtlas.new))).verts 2).map
        (fun v => v.uv)
      = [⟨0, 0⟩, ⟨1, 0⟩, ⟨1, 1⟩, ⟨0, 1⟩] :=
  ⟨C13_fallback_uvs host0 (paintedCell none) (Or.inl rfl) 2 (by decide),
   C13_fallback_uvs host0 (paintedCell (some TextureAtlas.new))
     (Or.inr ⟨TextureAtlas.new, rfl, by decide⟩) 2 (by decide)⟩

/-- C14: if the index list `BuildMesh` builds has more than 100,000,000
entries, the build fails: the failure is reported on `std::cerr`, there is no
vertex array and no buffer afterwards, the buffer contents are those left by
freeing the old objects (nothing is uploaded), the published index count is
`0` and `RenderVisible` issues no draw call.  Otherwise, for a non-empty mesh,
the mesh is uploaded and the published index count is the number of indices
built.  So the published index count is at most 100,000,000 after every
`BuildMesh`. -/
theorem C14_index_ceiling (host : Host) (s : State) :
    ((BuildMesh.loops host s).inds.length > 100000000 →
      (BuildMesh host s).s_indexCount = 0 ∧
      (BuildMesh host s).s_vao = 0 ∧ (BuildMesh host s).s_vbo = 0 ∧
      (BuildMesh host s).s_ebo = 0 ∧
      (BuildMesh host s).vboData = (BuildMesh.free s).vboData ∧
      (BuildMesh host s).eboData = (BuildMesh.free s).eboData ∧
      (BuildMesh host s).cerr = s.cerr ++
        ["BuildMesh: indices too large (" ++ toString (BuildMesh.loops host s).inds.length
          ++ "), aborting\n"] ∧
      RenderVisible (BuildMesh host s) = none) ∧
    ((BuildMesh.loops host s).inds ≠ [] → (BuildMesh.loops host s).inds.length ≤ 100000000 →
      (BuildMesh host s).s_indexCount = (BuildMesh.loops host s).inds.length ∧
      (BuildMesh host s).vboData = (BuildMesh.loops host s).verts ∧
      (BuildMesh host s).eboData = (BuildMesh.loops host s).inds) ∧
    (BuildMesh host s).s_indexCount ≤ 100000000 := by
  refine ⟨?_, ?_, ?_⟩
  · intro hbig
    have h := BuildMesh_noupload host s (Or.inr (Or.inr hbig))
    refine ⟨h.1, h.2.1, h.2.2.1, h.2.2.2.1, h.2.2.2.2.1, h.2.2.2.2.2,
      BuildMesh_tooLarge_cerr host s hbig, ?_⟩
    unfold RenderVisible
    rw [if_pos (Or.inl h.1)]
  · intro hne hle
    obtain ⟨q, hq⟩ := loops_layout host s
    have hv : (BuildMesh.loops host s).verts ≠ [] := by
      intro h0
      have h1 := hq.1
      rw [h0] at h1
      have hq0 : q = 0 := by simp at h1; omega
      apply hne
      rw [hq.2, hq0]
      rfl
    have h := BuildMesh_upload host s hv hne hle
    exact ⟨h.2.2, h.1, h.2.1⟩
  · rw [BuildMesh_indexCount]
    split_ifs with h
    · exact Nat.zero_le _
    · omega

/-- C14 at the grid of side 2887 with every cell occupied: its index list has
more than 100,000,000 entries, and the published index count is `0`. -/
theorem C14_index_ceiling_witness :
    100000000 < (BuildMesh.loops host0 (fullGrid 2887 stone)).inds.length ∧
    (BuildMesh host0 (fullGrid 2887 stone)).s_indexCount = 0 ∧
    RenderVisible (BuildMesh host0 (fullGrid 2887 stone)) = none := by
  have hbig : 100000000 < (BuildMesh.loops host0 (fullGrid 2887 stone)).inds.length := by
    have := fullGrid_inds_ge host0 2887 stone
    omega
  have h := (C14_index_ceiling host0 (fullGrid 2887 stone)).1 hbig
  exact ⟨hbig, h.1, h.2.2.2.2.2.2.2⟩

/-- C15: `BuildMesh` on the state a `BuildMesh` left (same grid, plane
elevation and atlas) builds the same vertex list and the same index list, and
leaves the same uploaded vertices, uploaded indices and published index
count; after `SetAtlas a; SetAtlas a` these three are the same as after one
`SetAtlas a`. -/
theorem C15_rebuild_same_mesh (host : Host) (s : State) (a : Option TextureAtlas) :
    BuildMesh.loops host (BuildMesh host s) = BuildMesh.loops host s ∧
    (BuildMesh host (BuildMesh host s)).vboData = (BuildMesh host s).vboData ∧
    (BuildMesh host (BuildMesh host s)).eboData = (BuildMesh host s).eboData ∧
    (BuildMesh host (BuildMesh host s)).s_indexCount = (BuildMesh host s).s_indexCount ∧
    (SetAtlas host (SetAtlas host s a) a).vboData = (SetAtlas host s a).vboData ∧
    (SetAtlas host (SetAtlas host s a) a).eboData = (SetAtlas host s a).eboData ∧
    (SetAtlas host (SetAtlas host s a) a).s_indexCount = (SetAtlas host s a).s_indexCount := by
  have hb := BuildMesh_twice host s
  refine ⟨loops_BuildMesh host s, hb.1, hb.2.1, hb.2.2, ?_⟩
  by_cases hp : s.s_plane = []
  · have h1 : SetAtlas host s a = { s with s_atlas := a } := by
      unfold SetAtlas
      simp [hp]
    have h2 : SetAtlas host { s with s_atlas := a } a = { s with s_atlas := a } := by
      unfold SetAtlas
      simp [hp]
    rw [h1, h2]
    exact ⟨rfl, rfl, rfl⟩
  · have h1 : SetAtlas host s a = BuildMesh host { s with s_atlas := a } := by
      unfold SetAtlas
      simp [hp]
    obtain ⟨f1, _, _, f4, _⟩ := BuildMesh_fields host { s with s_atlas := a }
    have h2 : SetAtlas host (BuildMesh host { s with s_atlas := a }) a
        = BuildMesh host (BuildMesh host { s with s_atlas := a }) :=
      SetAtlas_same host _ a f4 (by rw [f1]; exact hp)
    rw [h1, h2]
    exact BuildMesh_twice host _

/-- C15 at the grid of side 1 holding one block, with the 64x64 atlas. -/
theorem C15_rebuild_same_mesh_witness :
    (SetAtlas host0 (SetAtlas host0 (paintedCell none) (some TextureAtlas.atlas64))
        (some TextureAtlas.atlas64)).vboData
      = (SetAtlas host0 (paintedCell none) (some TextureAtlas.atlas64)).vboData :=
  (C15_rebuild_same_mesh host0 (paintedCell none) (some TextureAtlas.atlas64)).2.2.2.2.1

end rendering

namespace Block

/-- C16: `GetTileForFace face` is the stored entry `faceTile[face]` for
`0 ≤ face < 6` and the top entry `faceTile[0]` for every other integer; a
freshly constructed block, by any of the three constructors, returns `0` for
every face. -/
theorem C16_get_tile_for_face (b : Block) (face : Int) :
    (∀ i : Fin 6, b.GetTileForFace (i.val : Int) = b.faceTile i) ∧
    ((face < 0 ∨ 6 ≤ face) → b.GetTileForFace face = b.faceTile 0) ∧
    Block.new.GetTileForFace face = 0 ∧
    (∀ id_ displayName_, (Block.newNamed id_ displayName_).GetTileForFace face = 0) ∧
    (∀ n id_ displayName_ h so tr,
      (Block.newFull n id_ displayName_ h so tr).GetTileForFace face = 0) := by
  refine ⟨?_, ?_, ?_, ?_, ?_⟩
  · intro i
    have hi := i.isLt
    unfold GetTileForFace
    rw [dif_pos ⟨by omega, by omega⟩]
    congr 1
  · intro h
    unfold GetTileForFace
    rw [dif_neg (by omega)]
  · unfold GetTileForFace
    split_ifs <;> rfl
  · intro id_ displayName_
    unfold GetTileForFace
    split_ifs <;> rfl
  · intro n id_ displayName_ h so tr
    unfold GetTileForFace
    split_ifs <;> rfl

/-- C16 at the block `painted`, whose faces 0 to 5 hold the tiles 1 to 6:
face 3 gives tile 4, and the faces -1 and 6 give the top tile 1. -/
theorem C16_get_tile_for_face_witness :
    rendering.painted.GetTileForFace 3 = 4 ∧
    rendering.painted.GetTileForFace (-1) = 1 ∧
    rendering.painted.GetTileForFace 6 = 1 ∧
    Block.new.GetTileForFace 6 = 0 :=
  ⟨(C16_get_tile_for_face rendering.painted 3).1 3,
   (C16_get_tile_for_face rendering.painted (-1)).2.1 (Or.inl (by decide)),
   (C16_get_tile_for_face rendering.painted 6).2.1 (Or.inr (by decide)),
   (C16_get_tile_for_face rendering.painted 6).2.2.1⟩

/-- C17: for `0 ≤ face < 6`, after `SetTileForFace face tile` the face `face`
holds `tile` and each of the five other faces holds what it held; for any
other `face` the block is unchanged; in both cases the numeric id, id, display
name, hardness, solid and transparent fields are unchanged. -/
theorem C17_set_tile_for_face (b : Block) (face tile : Int) :
    ((0 ≤ face ∧ face < 6) →
      (b.SetTileForFace face tile).GetTileForFace face = tile ∧
      ∀ g : Int, 0 ≤ g → g < 6 → g ≠ face →
        (b.SetTileForFace face tile).GetTileForFace g = b.GetTileForFace g) ∧
    ((face < 0 ∨ 6 ≤ face) → b.SetTileForFace face tile = b) ∧
    (b.SetTileForFace face tile).numericId = b.numericId ∧
    (b.SetTileForFace face tile).id = b.id ∧
    (b.SetTileForFace face tile).displayName = b.displayName ∧
    (b.SetTileForFace face tile).hardness = b.hardness ∧
    (b.SetTileForFace face tile).solid = b.solid ∧
    (b.SetTileForFace face tile).transparent = b.transparent := by
  refine ⟨?_, ?_, ?_, ?_, ?_, ?_, ?_, ?_⟩
  · intro hf
    constructor
    · unfold SetTileForFace GetTileForFace
      rw [dif_pos hf, dif_pos hf]
      simp
    · intro g hg0 hg1 hne
      have hne2 : (⟨g.toNat, by omega⟩ : Fin 6) ≠ ⟨face.toNat, by omega⟩ := by
        intro h
        have := congrArg Fin.val h
        simp only at this
        omega
      unfold SetTileForFace GetTileForFace
      rw [dif_pos hf, dif_pos ⟨hg0, hg1⟩, dif_pos ⟨hg0, hg1⟩]
      simp only []
      rw [Function.update_noteq hne2]
  · intro h
    unfold SetTileForFace
    rw [dif_neg (by omega)]
  all_goals (unfold SetTileForFace; split_ifs <;> rfl)

/-- C17 at the block `painted`: setting face 2 to tile 9 gives 9 on face 2 and
leaves face 3 at 4; setting face 6 changes nothing. -/
theorem C17_set_tile_for_face_witness :
    (rendering.painted.SetTileForFace 2 9).GetTileForFace 2 = 9 ∧
    (rendering.painted.SetTileForFace 2 9).GetTileForFace 3
      = rendering.painted.GetTileForFace 3 ∧
    rendering.painted.SetTileForFace 6 9 = rendering.painted :=
  have h := (C17_set_tile_for_face rendering.painted 2 9).1 ⟨by decide, by decide⟩
  ⟨h.1, h.2 3 (by decide) (by decide) (by decide),
   (C17_set_tile_for_face rendering.painted 6 9).2.1 (Or.inr (by decide))⟩

end Block

namespace rendering

/-- C18: for integers `x, z` with `x < 0` or `z < 0` or `x ≥ W` or `z ≥ W`,
`GetBlockAt x z` is empty and `SetBlockAt x z ref` returns the state unchanged,
so every cell reads as before; in particular `SetBlockAt W 0 ref` does not
alter the cell `(0, 1)`, whose index `0 + 1 * W` is the one `idx W 0` gives. -/
theorem C18_out_of_bounds (s : State) (x z : Int) (ref : Option Block)
    (hout : x < 0 ∨ z < 0 ∨ x ≥ s.s_width ∨ z ≥ s.s_width) :
    GetBlockAt s x z = none ∧
    SetBlockAt s x z ref = s ∧
    (∀ x2 z2 : Int, GetBlockAt (SetBlockAt s x z ref) x2 z2 = GetBlockAt s x2 z2) ∧
    (SetBlockAt s s.s_width 0 ref = s ∧ idx s s.s_width 0 = idx s 0 1) := by
  have h1 : SetBlockAt s x z ref = s := by
    unfold SetBlockAt
    rw [if_pos hout]
  have h2 : SetBlockAt s s.s_width 0 ref = s := by
    unfold SetBlockAt
    rw [if_pos (by omega)]
  refine ⟨GetBlockAt_outside s x z hout, h1, ?_, h2, ?_⟩
  · intro x2 z2
    rw [h1]
  · unfold idx
    ring

/-- C18 at the grid of side 2 holding one block at `(1, 0)`: writing a block at
`(2, 0)` leaves the state as it is, the cell `(0, 1)` stays empty, and reading
`(2, 0)` or `(-1, 0)` gives empty. -/
theorem C18_out_of_bounds_witness :
    GetBlockAt oneCell 2 0 = none ∧
    SetBlockAt oneCell 2 0 (some stone) = oneCell ∧
    GetBlockAt (SetBlockAt oneCell 2 0 (some stone)) 0 1 = none ∧
    GetBlockAt oneCell (-1) 0 = none :=
  have h := C18_out_of_bounds oneCell 2 0 (some stone) (Or.inr (Or.inr (Or.inl (by decide))))
  have h2 := C18_out_of_bounds oneCell (-1) 0 none (Or.inl (by decide))
  ⟨h.1, h.2.1, by rw [h.2.2.1]; rfl, h2.1⟩

/-- C20 at the grid of side 2 that holds one stone block: the top quad (quad
0) stores the normal `+Y` but its winding `(p1 - p0) x (p2 - p0)` is `-Y`, and
the bottom quad (quad 1) stores `-Y` but its winding is `+Y`; the north,
south, west and east quads (quads 2 to 5) have a winding equal to the normal
they store. -/
theorem C20_top_bottom_winding :
    (quadAt (BuildMesh.loops host0 oneCell).verts 0).map (fun v => v.normal)
      = List.replicate 4 ⟨0, 1, 0⟩ ∧
    windingNormal (quadAt (BuildMesh.loops host0 oneCell).verts 0) = ⟨0, -1, 0⟩ ∧
    (quadAt (BuildMesh.loops host0 oneCell).verts 1).map (fun v => v.normal)
      = List.replicate 4 ⟨0, -1, 0⟩ ∧
    windingNormal (quadAt (BuildMesh.loops host0 oneCell).verts 1) = ⟨0, 1, 0⟩ ∧
    (quadAt (BuildMesh.loops host0 oneCell).verts 2).map (fun v => v.normal)
      = List.replicate 4 ⟨0, 0, -1⟩ ∧
    windingNormal (quadAt (BuildMesh.loops host0 oneCell).verts 2) = ⟨0, 0, -1⟩ ∧
    (quadAt (BuildMesh.loops host0 oneCell).verts 3).map (fun v => v.normal)
      = List.replicate 4 ⟨0, 0, 1⟩ ∧
    windingNormal (quadAt (BuildMesh.loops host0 oneCell).verts 3) = ⟨0, 0, 1⟩ ∧
    (quadAt (BuildMesh.loops host0 oneCell).verts 4).map (fun v => v.normal)
      = List.replicate 4 ⟨-1, 0, 0⟩ ∧
    windingNormal (quadAt (BuildMesh.loops host0 oneCell).verts 4) = ⟨-1, 0, 0⟩ ∧
    (quadAt (BuildMesh.loops host0 oneCell).verts 5).map (fun v => v.normal)
      = List.replicate 4 ⟨1, 0, 0⟩ ∧
    windingNormal (quadAt (BuildMesh.loops host0 oneCell).verts 5) = ⟨1, 0, 0⟩ := by
  have hv := single_cell_verts host0 oneCell 1 0 stone rfl oneCell_rest
  have hf : specCellFaces oneCell 1 0 = [0, 1, 2, 3, 4, 5] := by decide
  rw [hf] at hv
  have hq : ∀ k : Nat, k < 6 → quadAt (BuildMesh.loops host0 oneCell).verts k
      = cellQuad host0 oneCell (oneCell.s_width.tdiv 2) 1 0 stone (k : Int) := by
    intro k hk
    rw [hv]
    exact quadAt_faces _ (fun f => cellQuad_length host0 oneCell _ 1 0 stone f) k hk
  rw [hq 0 (by omega), hq 1 (by omega), hq 2 (by omega), hq 3 (by omega), hq 4 (by omega),
    hq 5 (by omega)]
  simp only [cellQuad_normals, Nat.cast_ofNat, Nat.cast_zero, Nat.cast_one]
  have hw : ∀ f : Int, f = 0 ∨ f = 1 ∨ f = 2 ∨ f = 3 ∨ f = 4 ∨ f = 5 →
      windingNormal (cellQuad host0 oneCell (oneCell.s_width.tdiv 2) 1 0 stone f)
        = if f = 0 ∨ f = 1 then (⟨0, 0, 0⟩ : glm.vec3).sub (faceNormal f) else faceNormal f :=
    fun f hf => cellQuad_winding host0 oneCell _ 1 0 stone f hf (by decide) (by decide)
      (by decide)
  rw [hw 0 (by omega), hw 1 (by omega), hw 2 (by omega), hw 3 (by omega), hw 4 (by omega),
    hw 5 (by omega)]
  norm_num [faceNormal, glm.vec3.sub]

end rendering

namespace rendering

/-- C21: in a grid of side `W` (a store of `W * W` cells), for in-bounds
`(x, z)` and `(x2, z2)` and every reference `r`, empty or not: after
`SetBlockAt x z r`, `GetBlockAt x z` is `r`, and `GetBlockAt x2 z2` is what it
was before when `(x2, z2)` differs from `(x, z)`, the index `x + z * W` being
injective on in-bounds coordinates; `SetBlockAt` changes neither the uploaded
mesh, nor the GL objects, nor the published index count. -/
theorem C21_set_then_get (s : State) (x z x2 z2 : Int) (r : Option Block)
    (hwf : s.s_plane.length = (s.s_width * s.s_width).toNat)
    (hx0 : 0 ≤ x) (hx1 : x < s.s_width) (hz0 : 0 ≤ z) (hz1 : z < s.s_width)
    (hx20 : 0 ≤ x2) (hx21 : x2 < s.s_width) (hz20 : 0 ≤ z2) (hz21 : z2 < s.s_width) :
    GetBlockAt (SetBlockAt s x z r) x z = r ∧
    ((x2 ≠ x ∨ z2 ≠ z) → GetBlockAt (SetBlockAt s x z r) x2 z2 = GetBlockAt s x2 z2) ∧
    (idx s x z = idx s x2 z2 → x = x2 ∧ z = z2) ∧
    (SetBlockAt s x z r).vboData = s.vboData ∧
    (SetBlockAt s x z r).eboData = s.eboData ∧
    (SetBlockAt s x z r).s_indexCount = s.s_indexCount ∧
    (SetBlockAt s x z r).s_vao = s.s_vao ∧
    (SetBlockAt s x z r).s_vbo = s.s_vbo ∧
    (SetBlockAt s x z r).s_ebo = s.s_ebo := by
  have hin : ¬ (x < 0 ∨ z < 0 ∨ x ≥ s.s_width ∨ z ≥ s.s_width) := by omega
  have hin2 : ¬ (x2 < 0 ∨ z2 < 0 ∨ x2 ≥ s.s_width ∨ z2 ≥ s.s_width) := by omega
  have hset : SetBlockAt s x z r = { s with s_plane := s.s_plane.set (idx s x z).toNat r } := by
    unfold SetBlockAt
    rw [if_neg hin]
  obtain ⟨hi0, hi1⟩ := idx_lt s.s_width x z hx0 hx1 hz0 hz1
  have hlt : (idx s x z).toNat < s.s_plane.length := by
    unfold idx
    rw [hwf]
    omega
  refine ⟨?_, ?_, ?_, ?_, ?_, ?_, ?_, ?_, ?_⟩
  · rw [hset]
    unfold GetBlockAt
    rw [if_neg hin]
    show (s.s_plane.set (idx s x z).toNat r).getD (idx s x z).toNat none = r
    rw [List.getD_eq_getElem _ _ (by rw [List.length_set]; exact hlt), List.getElem_set_self]
  · intro hne
    have hidx : (idx s x z).toNat ≠ (idx s x2 z2).toNat := by
      intro h
      obtain ⟨hj0, _⟩ := idx_lt s.s_width x2 z2 hx20 hx21 hz20 hz21
      have h2 : x + z * s.s_width = x2 + z2 * s.s_width := by
        unfold idx at h
        omega
      have := idx_inj s.s_width x z x2 z2 hx0 hx1 hx20 hx21 h2
      omega
    rw [hset]
    unfold GetBlockAt
    rw [if_neg hin2, if_neg hin2]
    show (s.s_plane.set (idx s x z).toNat r).getD (idx s x2 z2).toNat none
      = s.s_plane.getD (idx s x2 z2).toNat none
    simp only [List.getD_eq_getElem?_getD]
    rw [List.getElem?_set_ne hidx]
  · intro h
    exact idx_inj s.s_width x z x2 z2 hx0 hx1 hx20 hx21 h
  all_goals (rw [hset])

/-- C21 at the grid of side 2 holding one block at `(1, 0)`: after writing a
block at `(0, 1)`, the cell `(0, 1)` holds it and the cell `(1, 0)` still
holds its own. -/
theorem C21_set_then_get_witness :
    GetBlockAt (SetBlockAt oneCell 0 1 (some painted)) 0 1 = some painted ∧
    GetBlockAt (SetBlockAt oneCell 0 1 (some painted)) 1 0 = GetBlockAt oneCell 1 0 ∧
    (SetBlockAt oneCell 0 1 (some painted)).s_indexCount = oneCell.s_indexCount :=
  have h := C21_set_then_get oneCell 0 1 1 0 (some painted) rfl (by decide) (by decide)
    (by decide) (by decide) (by decide) (by decide) (by decide) (by decide)
  ⟨h.1, h.2.1 (Or.inl (by decide)), h.2.2.2.2.2.1⟩

/-- C22: `InitFlatPlane prototype y` with `WORLD_WIDTH = W ≥ 1` leaves every
in-bounds cell holding the prototype, and the mesh of that grid has exactly
`2*W*W + 4*W` quads, that is `4 * (2*W*W + 4*W)` vertices and
`6 * (2*W*W + 4*W)` indices.  The call returns, without the exception of
`EnsureProgram`, exactly when the program is there already or both shaders
compile; when it returns and that index count does not exceed 100,000,000,
this mesh is the one uploaded and its index count is the published one. -/
theorem C22_flat_plane (W : Nat) (host : Host) (gl : ShaderHost) (s : State)
    (prototype : Block) (y : Int) (hW : 1 ≤ W) :
    (∀ x z : Int, 0 ≤ x → x < W → 0 ≤ z → z < W →
      GetBlockAt (InitFlatPlane (W : Int) host gl s prototype y).state x z = some prototype) ∧
    (BuildMesh.loops host (InitFlatPlane (W : Int) host gl s prototype y).state).verts.length
      = 4 * (2 * W * W + 4 * W) ∧
    (BuildMesh.loops host (InitFlatPlane (W : Int) host gl s prototype y).state).inds.length
      = 6 * (2 * W * W + 4 * W) ∧
    ((InitFlatPlane (W : Int) host gl s prototype y).exn = none ↔
      (s.s_program ≠ 0 ∨
        ((∃ n, gl.vertex = .ok n ∧ n ≠ 0) ∧ (∃ n, gl.fragment = .ok n ∧ n ≠ 0)))) ∧
    ((InitFlatPlane (W : Int) host gl s prototype y).exn = none →
      6 * (2 * W * W + 4 * W) ≤ 100000000 →
      (InitFlatPlane (W : Int) host gl s prototype y).state.s_indexCount
        = 6 * (2 * W * W + 4 * W) ∧
      (InitFlatPlane (W : Int) host gl s prototype y).state.vboData
        = (BuildMesh.loops host (InitFlatPlane (W : Int) host gl s prototype y).state).verts ∧
      (InitFlatPlane (W : Int) host gl s prototype y).state.eboData
        = (BuildMesh.loops host
            (InitFlatPlane (W : Int) host gl s prototype y).state).inds) := by
  obtain ⟨hw, _, hp⟩ := InitFlatPlane_full W host gl s prototype y
  have hfull : ∀ x z : Int, 0 ≤ x → x < W → 0 ≤ z → z < W →
      GetBlockAt (InitFlatPlane (W : Int) host gl s prototype y).state x z = some prototype :=
    fun x z hx0 hx1 hz0 hz1 => GetBlockAt_replicate _ W prototype hw hp x z hx0 hx1 hz0 hz1
  have hq := full_quads _ W prototype hw hfull hW
  have hv : (BuildMesh.loops host
      (InitFlatPlane (W : Int) host gl s prototype y).state).verts.length
      = 4 * (2 * W * W + 4 * W) := by
    rw [loops_verts_length, hq]
  have hi : (BuildMesh.loops host
      (InitFlatPlane (W : Int) host gl s prototype y).state).inds.length
      = 6 * (2 * W * W + 4 * W) := by
    rw [loops_inds_length, hq]
  refine ⟨hfull, hv, hi, InitFlatPlane_exn (W : Int) host gl s prototype y, ?_⟩
  intro hret hsmall
  obtain ⟨s3, _, _, _, _, hcase⟩ := InitFlatPlane_outcome (W : Int) host gl s prototype y
  rcases hcase with ⟨hne, _⟩ | ⟨_, hst⟩
  · exact absurd hret hne
  · rw [hst] at hv hi ⊢
    rw [loops_BuildMesh] at hv hi ⊢
    have hpos : 0 < 2 * W * W + 4 * W := by
      have : 0 < 4 * W := by omega
      omega
    have hup := BuildMesh_upload host s3
      (fun h => by rw [h] at hv; simp at hv; omega)
      (fun h => by rw [h] at hi; simp at hi; omega) (by omega)
    exact ⟨by rw [hup.2.2, hi], hup.1, hup.2.1⟩

/-- C22 at `WORLD_WIDTH = 2`, from the initial state, with shaders that
compile: the call returns, the four cells hold the block, and the mesh has 16
quads, 64 vertices and 96 indices, the published index count. -/
theorem C22_flat_plane_witness :
    (InitFlatPlane 2 host0 shaders0 (initial 2) stone 0).exn = none ∧
    GetBlockAt (InitFlatPlane 2 host0 shaders0 (initial 2) stone 0).state 1 1 = some stone ∧
    (BuildMesh.loops host0
      (InitFlatPlane 2 host0 shaders0 (initial 2) stone 0).state).verts.length = 64 ∧
    (InitFlatPlane 2 host0 shaders0 (initial 2) stone 0).state.s_indexCount = 96 :=
  have h := C22_flat_plane 2 host0 shaders0 (initial 2) stone 0 (by decide)
  have hret : (InitFlatPlane 2 host0 shaders0 (initial 2) stone 0).exn = none :=
    h.2.2.2.1.mpr (Or.inr ⟨⟨4, rfl, by decide⟩, ⟨5, rfl, by decide⟩⟩)
  ⟨hret, h.1 1 1 (by decide) (by decide) (by decide) (by decide), h.2.1,
    (h.2.2.2.2 hret (by decide)).1⟩

/-- C23: a reachable state has `s_width = WORLD_WIDTH`, and its cell store
holds either `WORLD_WIDTH * WORLD_WIDTH` cells or none.  With
`WORLD_WIDTH = 2` the store is empty in the initial state and in the state
after `InitFlatPlane; Shutdown`, both reachable: there the coordinates
`(0, 0)` pass the bounds check of `GetBlockAt` and `SetBlockAt`, and the index
`idx 0 0 = 0` they give is not inside the store. -/
theorem C23_store_empty_when_reachable :
    (∀ (W : Int) (s : State), Reachable W s →
      s.s_width = W ∧ (s.s_plane.length = 0 ∨ s.s_plane.length = (W * W).toNat)) ∧
    Reachable 2 (initial 2) ∧
    (initial 2).s_plane.length = 0 ∧
    ¬ ((0 : Int) < 0 ∨ (0 : Int) < 0 ∨ (0 : Int) ≥ (initial 2).s_width ∨
        (0 : Int) ≥ (initial 2).s_width) ∧
    ¬ ((idx (initial 2) 0 0).toNat < (initial 2).s_plane.length) ∧
    Reachable 2 (Shutdown (InitFlatPlane 2 host0 shaders0 (initial 2) stone 0).state) ∧
    (Shutdown (InitFlatPlane 2 host0 shaders0 (initial 2) stone 0).state).s_plane.length = 0 ∧
    ¬ ((0 : Int) < 0 ∨ (0 : Int) < 0 ∨
        (0 : Int) ≥ (Shutdown (InitFlatPlane 2 host0 shaders0 (initial 2) stone 0).state).s_width ∨
        (0 : Int) ≥
          (Shutdown (InitFlatPlane 2 host0 shaders0 (initial 2) stone 0).state).s_width) := by
  have hr : Reachable 2 (Shutdown (InitFlatPlane 2 host0 shaders0 (initial 2) stone 0).state) :=
    Reachable.shutdown _ (Reachable.initFlatPlane host0 shaders0 _ stone 0 Reachable.init)
  obtain ⟨hp, hw⟩ := Shutdown_fields (InitFlatPlane 2 host0 shaders0 (initial 2) stone 0).state
  have hw2 := (InitFlatPlane_store 2 host0 shaders0 (initial 2) stone 0).1
  refine ⟨reachable_store, Reachable.init, rfl, by decide, by decide, hr, ?_, ?_⟩
  · rw [hp]
    rfl
  · rw [hw, hw2]
    decide

end rendering
